import Mathlib

/-! # Text-box layout: a shallow embedding of `textbox/textbox.go` and `main.go`

The Go package `textbox` computes, for a box of text, its screen rectangle and
the padded string to draw.  The definitions below follow the Go source
function by function.

Modelling conventions.

* Go `int` is `GoInt`, the 64-bit signed integers: an `Int` in the range
  `-2^63 ..< 2^63`, with `+`, `-`, `*` and `/` wrapping around modulo `2^64`
  as the Go operators do.
* Go `uint` (the two alignment types) is `Nat`.
* `len(s)` of a Go string is its length in bytes, `String.utf8ByteSize`.
* A method with a pointer receiver that mutates the box becomes a function
  from the box to the box after the call.
* `log.Fatal` and `panic` end the program.  A call that can reach one of them
  returns an `Outcome`: either the box after the call, or the message together
  with the box as it stood when the program stopped.
* The package `env` (process-wide terminal state) is read through an explicit
  `Env` record.
-/

/-- Go integer arithmetic wraps around: the representative of `x` modulo
`2^64` in the range of a 64-bit signed integer. -/
def wrap64 (x : Int) : Int :=
  (x + 9223372036854775808) % 18446744073709551616 - 9223372036854775808

/-- The range of Go `int` on a 64-bit platform, `-2^63 ≤ x < 2^63`. -/
def inInt64 (x : Int) : Prop :=
  -9223372036854775808 ≤ x ∧ x < 9223372036854775808

/-- Membership in the `int` range can be computed. -/
instance inInt64.decidable (x : Int) : Decidable (inInt64 x) :=
  inferInstanceAs (Decidable (-9223372036854775808 ≤ x ∧ x < 9223372036854775808))

/-- Go `int` (64 bits): an integer together with the fact that it is in range. -/
@[ext]
structure GoInt where
  val : Int
  inRange : inInt64 val

namespace GoInt

/-- Conversion of an integer to `int`, wrapping around. -/
def ofInt (x : Int) : GoInt :=
  ⟨wrap64 x, by unfold inInt64 wrap64; omega⟩

/-- Equality of two `int`s is equality of their values. -/
instance decEq : DecidableEq GoInt :=
  fun a b => decidable_of_iff (a.val = b.val) (GoInt.ext_iff (x := a) (y := b)).symm

/-- Integer literals. -/
instance instOfNat (n : Nat) : OfNat GoInt n := ⟨ofInt (Int.ofNat n)⟩

/-- Go `a + b`. -/
instance instAdd : Add GoInt := ⟨fun a b => ofInt (a.val + b.val)⟩

/-- Go `a - b`. -/
instance instSub : Sub GoInt := ⟨fun a b => ofInt (a.val - b.val)⟩

/-- Go `a * b`. -/
instance instMul : Mul GoInt := ⟨fun a b => ofInt (a.val * b.val)⟩

/-- Go `-a`. -/
instance instNeg : Neg GoInt := ⟨fun a => ofInt (-a.val)⟩

/-- Go `a / b`, which truncates toward zero.  The only divisor in the program
is the constant 2, so division by zero, a run-time panic in Go, does not arise. -/
instance instDiv : Div GoInt := ⟨fun a b => ofInt (Int.tdiv a.val b.val)⟩

/-- Go `a < b`. -/
instance instLT : LT GoInt := ⟨fun a b => a.val < b.val⟩

/-- Go `a <= b`. -/
instance instLE : LE GoInt := ⟨fun a b => a.val ≤ b.val⟩

/-- Go `a < b` can be computed. -/
instance decLt (a b : GoInt) : Decidable (a < b) :=
  inferInstanceAs (Decidable (a.val < b.val))

/-- Go `a <= b` can be computed. -/
instance decLe (a b : GoInt) : Decidable (a ≤ b) :=
  inferInstanceAs (Decidable (a.val ≤ b.val))

end GoInt

/-- Package `env`: the process-wide terminal state that `textbox` reads and
`main.updateGlobalVar` writes. -/
structure Env where
  MaxX : GoInt
  MaxY : GoInt
  CenterX : GoInt
  CenterY : GoInt
  MarginX : GoInt
  MarginY : GoInt
  DEBUG : Bool
deriving DecidableEq

/-- Go builtin `len` on a string: the number of bytes, as an `int`. -/
def len (s : String) : GoInt := GoInt.ofInt (s.utf8ByteSize : Int)

/-- Go `error` value: `none` is `nil`, `some msg` an error with that text. -/
abbrev error := Option String

namespace textbox

/-- Handle of the external `*gocui.Gui`. -/
abbrev Gui := Nat

/-- Go `type TextHAlign uint`. -/
abbrev TextHAlign := Nat
/-- Go `type TextVAlign uint`. -/
abbrev TextVAlign := Nat

/-- Go `TextHAlignCenter = iota + 1`. -/
def TextHAlignCenter : TextHAlign := 1
/-- Go `TextHAlignLeft`. -/
def TextHAlignLeft : TextHAlign := 2
/-- Go `TextHAlignRight`. -/
def TextHAlignRight : TextHAlign := 3

/-- Go `TextVAlignCenter = iota + 1`. -/
def TextVAlignCenter : TextVAlign := 1
/-- Go `TextVAlignTop`. -/
def TextVAlignTop : TextVAlign := 2
/-- Go `TextVAlignBottom`. -/
def TextVAlignBottom : TextVAlign := 3

/-- Go `type TextBox struct`. -/
@[ext]
structure TextBox where
  gui : Gui
  name : String
  text : String
  halign : TextHAlign
  valign : TextVAlign
  marginX : GoInt
  marginY : GoInt
  top : GoInt
  left : GoInt
  width : GoInt
  height : GoInt
  bottom : GoInt
  right : GoInt
  repr : String
deriving DecidableEq

/-- Result of a call that may stop the program (`log.Fatal`, `panic`). -/
inductive Outcome where
  | ok (box : TextBox)
  | abort (msg : String) (box : TextBox)
deriving DecidableEq

/-- The box a call leaves behind, whether it returned or stopped the program. -/
def Outcome.box : Outcome → TextBox
  | .ok b => b
  | .abort _ b => b

/-- Whether the call returned. -/
def Outcome.returned : Outcome → Bool
  | .ok _ => true
  | .abort _ _ => false

/-- Go `func (v TextHAlign) String() string`. -/
def hAlignString (v : TextHAlign) : String :=
  if v = TextHAlignCenter then "TextHAlignCenter"
  else if v = TextHAlignLeft then "TextHAlignLeft"
  else if v = TextHAlignRight then "TextHAlignRight"
  else "Unknown"

/-- Go `func validHAlign(v TextHAlign) error`; `%v` prints `v` through its
`String` method. -/
def validHAlign (v : TextHAlign) : error :=
  if v = TextHAlignCenter then none
  else if v = TextHAlignLeft then none
  else if v = TextHAlignRight then none
  else some ("Found invalid value: " ++ hAlignString v)

/-- Go `func (self *TextBox) SetHAlign(v TextHAlign)`. -/
def TextBox.SetHAlign (self : TextBox) (v : TextHAlign) : Outcome :=
  match validHAlign v with
  | some err => .abort err self
  | none => .ok { self with halign := v }

/-- Go `func (self *TextBox) HAlign() TextHAlign`. -/
def TextBox.HAlign (self : TextBox) : TextHAlign := self.halign

/-- Go `func (v TextVAlign) String() string`. -/
def vAlignString (v : TextVAlign) : String :=
  if v = TextVAlignCenter then "TextVAlignCenter"
  else if v = TextVAlignTop then "TextVAlignTop"
  else if v = TextVAlignBottom then "TextVAlignBottom"
  else "Unknown"

/-- Go `func validVAlign(v TextVAlign) error`. -/
def validVAlign (v : TextVAlign) : error :=
  if v = TextVAlignCenter then none
  else if v = TextVAlignTop then none
  else if v = TextVAlignBottom then none
  else some ("Found invalid value: " ++ vAlignString v)

/-- Go `func (self *TextBox) SetVAlign(v TextVAlign)`. -/
def TextBox.SetVAlign (self : TextBox) (v : TextVAlign) : Outcome :=
  match validVAlign v with
  | some err => .abort err self
  | none => .ok { self with valign := v }

/-- Go `func (self *TextBox) VAlign() TextVAlign`. -/
def TextBox.VAlign (self : TextBox) : TextVAlign := self.valign

/-- Go `func (self *TextBox) Name() string`. -/
def TextBox.Name (self : TextBox) : String := self.name

/-- Go `func (self *TextBox) SetText(text string)`. -/
def TextBox.SetText (self : TextBox) (text : String) : TextBox :=
  { self with text := text }

/-- Go `func (self *TextBox) Text() string`. -/
def TextBox.Text (self : TextBox) : String := self.text

/-- Go `func (self *TextBox) Repr() string`. -/
def TextBox.Repr (self : TextBox) : String := self.repr

/-- Go `func (self *TextBox) SetMarginX(marginX int)`. -/
def TextBox.SetMarginX (self : TextBox) (marginX : GoInt) : TextBox :=
  { self with marginX := marginX }

/-- Go `func (self *TextBox) MarginX() int`. -/
def TextBox.MarginX (self : TextBox) : GoInt := self.marginX

/-- Go `func (self *TextBox) SetMarginY(marginY int)`. -/
def TextBox.SetMarginY (self : TextBox) (marginY : GoInt) : TextBox :=
  { self with marginY := marginY }

/-- Go `func (self *TextBox) MarginY() int`. -/
def TextBox.MarginY (self : TextBox) : GoInt := self.marginY

/-- Go `func validTopLeft(t *TextBox, top, left int) (int, int)`.  `x` starts
at the zero value and the `left` chain has no final `else`; `y` is assigned on
every path of the `top` chain. -/
def validTopLeft (e : Env) (t : TextBox) (top left : GoInt) : GoInt × GoInt :=
  let x : GoInt := 0
  let y : GoInt :=
    if top < 0 then 0
    else if top > e.MaxY then e.MaxY - 2 - (t.marginY * 2) - (e.MarginY * 2)
    else top
  let x :=
    if left < 0 then 0
    else if left > e.MaxX then e.MaxX - len t.text - (t.marginX * 2) - (e.MarginX * 2)
    else x
  (y, x)

/-- Go `func (self *TextBox) SetPos(top int, left int)`. -/
def TextBox.SetPos (e : Env) (self : TextBox) (top left : GoInt) : TextBox :=
  let r := validTopLeft e self top left
  { self with top := r.1, left := r.2 }

/-- Go `func (self *TextBox) Pos() (int, int, int, int)`. -/
def TextBox.Pos (self : TextBox) : GoInt × GoInt × GoInt × GoInt :=
  (self.top, self.left, self.right, self.bottom)

/-- Go `func (self *TextBox) init(name string, gui *gocui.Gui)`. -/
def TextBox.init (self : TextBox) (name : String) (gui : Gui) : TextBox :=
  { self with
    gui := gui, name := name, text := "",
    halign := TextHAlignCenter, valign := TextVAlignCenter,
    top := 0, left := 0, marginX := 1, marginY := 1 }

/-- Go loop `for i := 0; i < cond; i++ { text += s }` with `n` iterations still
to run. -/
def appendTimes (s : String) : Nat → String → String
  | 0, text => text
  | n + 1, text => appendTimes s n (text ++ s)

/-- Go loop `for i := 0; i < cond; i++ { text += s }`: it runs `cond` times
when `cond` is positive and not at all otherwise. -/
def padLoop (s : String) (cond : GoInt) (text : String) : String :=
  appendTimes s cond.val.toNat text

/-- Go `func (self *TextBox) align()`. -/
def TextBox.align (e : Env) (self : TextBox) : Outcome :=
  let text : String := ""
  let self := { self with width := len self.text + self.marginX * 2 + e.MarginX * 2 }
  let self := { self with height := 2 + self.marginY * 2 + e.MarginY * 2 }
  let self := { self with right := self.left + self.width }
  let self := { self with bottom := self.top + self.height }
  let self := if self.right > e.MaxX then { self with right := e.MaxX } else self
  let self := if self.bottom > e.MaxY then { self with bottom := e.MaxY } else self
  let self :=
    if self.left + self.width > e.MaxX then
      { self with left := e.MaxX - self.width, right := e.MaxX }
    else self
  let self :=
    if self.top + self.height > e.MaxY then
      { self with top := e.MaxY - self.height - 1, bottom := e.MaxY - 1 }
    else self
  let vcond : Option GoInt :=
    if self.valign = TextVAlignCenter then some self.marginY
    else if self.valign = TextVAlignTop then some 0
    else if self.valign = TextVAlignBottom then some (self.marginY * 2)
    else none
  match vcond with
  | none => .abort "Found invalid value in self.valign" self
  | some cond =>
    let text := padLoop "\n" cond text
    let hcond : Option GoInt :=
      if self.halign = TextHAlignCenter then some self.marginX
      else if self.halign = TextHAlignLeft then some 0
      else if self.halign = TextHAlignRight then some (self.marginX * 2)
      else none
    match hcond with
    | none => .abort "Found invalid value in self.halign" self
    | some cond =>
      let text := padLoop " " cond text
      let text := text ++ self.text
      .ok { self with repr := text }

/-- First half of `align`: the box after the rectangle has been computed. -/
def alignRect (e : Env) (self : TextBox) : TextBox :=
  let self := { self with width := len self.text + self.marginX * 2 + e.MarginX * 2 }
  let self := { self with height := 2 + self.marginY * 2 + e.MarginY * 2 }
  let self := { self with right := self.left + self.width }
  let self := { self with bottom := self.top + self.height }
  let self := if self.right > e.MaxX then { self with right := e.MaxX } else self
  let self := if self.bottom > e.MaxY then { self with bottom := e.MaxY } else self
  let self :=
    if self.left + self.width > e.MaxX then
      { self with left := e.MaxX - self.width, right := e.MaxX }
    else self
  if self.top + self.height > e.MaxY then
    { self with top := e.MaxY - self.height - 1, bottom := e.MaxY - 1 }
  else self

/-- Second half of `align`: the padded text is built and stored. -/
def alignText (self : TextBox) : Outcome :=
  let vcond : Option GoInt :=
    if self.valign = TextVAlignCenter then some self.marginY
    else if self.valign = TextVAlignTop then some 0
    else if self.valign = TextVAlignBottom then some (self.marginY * 2)
    else none
  match vcond with
  | none => .abort "Found invalid value in self.valign" self
  | some cond =>
    let text := padLoop "\n" cond ""
    let hcond : Option GoInt :=
      if self.halign = TextHAlignCenter then some self.marginX
      else if self.halign = TextHAlignLeft then some 0
      else if self.halign = TextHAlignRight then some (self.marginX * 2)
      else none
    match hcond with
    | none => .abort "Found invalid value in self.halign" self
    | some cond =>
      let text := padLoop " " cond text
      let text := text ++ self.text
      .ok { self with repr := text }

/-- Go `type Option interface { Apply(*TextBox) }` with its six implementing
types `TextHAlign`, `TextVAlign`, `Text`, `MarginX`, `MarginY` and `Pos`. -/
inductive Option where
  | TextHAlign (v : TextHAlign)
  | TextVAlign (v : TextVAlign)
  | Text (v : String)
  | MarginX (v : GoInt)
  | MarginY (v : GoInt)
  | Pos (top left : GoInt)
deriving DecidableEq

/-- Go `func WithHAlign(v TextHAlign) TextHAlign`. -/
def WithHAlign (v : TextHAlign) : Option := .TextHAlign v
/-- Go `func WithVAlign(v TextVAlign) TextVAlign`. -/
def WithVAlign (v : TextVAlign) : Option := .TextVAlign v
/-- Go `func WithText(v string) Text`. -/
def WithText (v : String) : Option := .Text v
/-- Go `func WithMarginX(v int) MarginX`. -/
def WithMarginX (v : GoInt) : Option := .MarginX v
/-- Go `func WithMarginY(v int) MarginY`. -/
def WithMarginY (v : GoInt) : Option := .MarginY v
/-- Go `func WithPos(top, left int) Option`. -/
def WithPos (top left : GoInt) : Option := .Pos top left

/-- The six Go `Apply(t *TextBox)` methods. -/
def Option.Apply (e : Env) (o : Option) (t : TextBox) : Outcome :=
  match o with
  | .TextHAlign v => t.SetHAlign v
  | .TextVAlign v => t.SetVAlign v
  | .Text v => .ok (t.SetText v)
  | .MarginX v => .ok (t.SetMarginX v)
  | .MarginY v => .ok (t.SetMarginY v)
  | .Pos top left =>
    let r := validTopLeft e t top left
    .ok { t with top := r.1, left := r.2 }

/-- Go loop `for _, o := range options { o.Apply(obj) }` of `New`. -/
def applyOptions (e : Env) : List Option → TextBox → Outcome
  | [], obj => .ok obj
  | o :: options, obj =>
    match o.Apply e obj with
    | .ok obj => applyOptions e options obj
    | .abort msg box => .abort msg box

/-- Go `&TextBox{}`: every field at its zero value. -/
def TextBox.zero : TextBox :=
  { gui := 0, name := "", text := "", halign := 0, valign := 0,
    marginX := 0, marginY := 0, top := 0, left := 0, width := 0, height := 0,
    bottom := 0, right := 0, repr := "" }

/-- Go `func New(gui *gocui.Gui, name string, options ...Option) *TextBox`. -/
def New (e : Env) (gui : Gui) (name : String) (options : List Option) : Outcome :=
  let obj := TextBox.zero
  let obj := obj.init name gui
  applyOptions e options obj

end textbox

namespace main
open textbox

/-- Go `func updateGlobalVar(gui *gocui.Gui)` of `main.go`, with `size` the
pair returned by `gui.Size()`. -/
def updateGlobalVar (e : Env) (size : GoInt × GoInt) : Env :=
  let e := { e with MaxX := size.1, MaxY := size.2 }
  let e := { e with CenterX := e.MaxX / 2 }
  let e := { e with CenterY := e.MaxY / 2 }
  e

/-- The first box of `defaultViews` in `layout`. -/
def hello0 (e : Env) (gui : Gui) : Outcome :=
  New e gui "hello0"
    [WithText "hello0", WithHAlign TextHAlignCenter, WithVAlign TextVAlignCenter,
     WithMarginX 3, WithMarginY 3, WithPos 0 0]

/-- The second box of `defaultViews` in `layout`. -/
def hello1 (e : Env) (gui : Gui) : Outcome :=
  New e gui "hello1"
    [WithText "hello1", WithHAlign TextHAlignLeft, WithVAlign TextVAlignTop,
     WithMarginX 2, WithMarginY 2, WithPos e.CenterY e.CenterX]

/-- The third box of `defaultViews` in `layout`. -/
def hello2 (e : Env) (gui : Gui) : Outcome :=
  New e gui "hello2"
    [WithText "hello2", WithHAlign TextHAlignRight, WithVAlign TextVAlignBottom,
     WithMarginX 4, WithMarginY 4, WithPos e.MaxY e.MaxX]

end main

/-- Go `error` value of an external library whose error values have type
`Err`: `none` is `nil`. -/
abbrev errorOf (Err : Type) := Option Err

namespace gocui

/-- The part of the external library `gocui` that `TextBox.SetView` touches, at
the moment of the call: the error value `gocui.ErrUnknownView`, and what
`(*Gui).SetView(name, x0, y0, x1, y1)` returns for a request, a view and an
error. -/
structure Lib (View Err : Type) where
  ErrUnknownView : Err
  SetView : Nat → String → GoInt → GoInt → GoInt → GoInt → View × errorOf Err

end gocui

namespace textbox

/-- An environment with no outer margin on a terminal of the given size. -/
def envOfSize (w h : GoInt) : Env :=
  main.updateGlobalVar
    { MaxX := 0, MaxY := 0, CenterX := 0, CenterY := 0, MarginX := 0, MarginY := 0,
      DEBUG := false } (w, h)

/-- Width that `align` gives the box: text length plus both margins twice, in
`int` arithmetic. -/
def boxWidth (e : Env) (t : TextBox) : GoInt :=
  len t.text + t.marginX * 2 + e.MarginX * 2

/-- Height that `align` gives the box: two rows plus both margins twice, in
`int` arithmetic. -/
def boxHeight (e : Env) (t : TextBox) : GoInt :=
  2 + t.marginY * 2 + e.MarginY * 2

/-- The sum `len(text) + 2*marginX + 2*env.MarginX` over the integers, without
wrap-around. -/
def exactWidth (e : Env) (t : TextBox) : Int :=
  (len t.text).val + 2 * t.marginX.val + 2 * e.MarginX.val

/-- The sum `2 + 2*marginY + 2*env.MarginY` over the integers, without
wrap-around. -/
def exactHeight (e : Env) (t : TextBox) : Int :=
  2 + 2 * t.marginY.val + 2 * e.MarginY.val

/-- Padding that `align` puts before the text: the count of newlines. -/
def vPad (t : TextBox) : GoInt :=
  if t.valign = TextVAlignCenter then t.marginY
  else if t.valign = TextVAlignTop then 0
  else t.marginY * 2

/-- Padding that `align` puts before the text: the count of spaces. -/
def hPad (t : TextBox) : GoInt :=
  if t.halign = TextHAlignCenter then t.marginX
  else if t.halign = TextHAlignLeft then 0
  else t.marginX * 2

/-- The box `New` starts from when it is given no option. -/
def defaultBox (name : String) (gui : Gui) : TextBox :=
  TextBox.zero.init name gui

/-- The box `hello0` of `main.go` before `SetView`: text "hello0", centred,
margins 3 and 3, at the origin. -/
def hello0Box : TextBox :=
  { defaultBox "hello0" 0 with text := "hello0", marginX := 3, marginY := 3 }

/-- Which attribute an option sets: 0 horizontal alignment, 1 vertical
alignment, 2 text, 3 margin-X, 4 margin-Y, 5 position. -/
def Option.kind : Option → Nat
  | .TextHAlign _ => 0
  | .TextVAlign _ => 1
  | .Text _ => 2
  | .MarginX _ => 3
  | .MarginY _ => 4
  | .Pos _ _ => 5

/-- An option is valid when its `Apply` cannot stop the program: an alignment
option must carry a value that `validHAlign` or `validVAlign` accepts. -/
def Option.valid : Option → Bool
  | .TextHAlign v => (validHAlign v).isNone
  | .TextVAlign v => (validVAlign v).isNone
  | _ => true

/-- Result of `TextBox.SetView`: it returns with the box as `align` left it,
the `fmt.Fprintln` calls it made (the view and the bytes written to it) and
the error it hands back, or `align` stopped the program. -/
inductive SetViewOutcome (View Err : Type) where
  | ret (box : TextBox) (writes : List (View × String)) (err : errorOf Err)
  | abort (msg : String) (box : TextBox)
deriving DecidableEq

/-- Go `func (self *TextBox) SetView() error`.  `fmt.Fprintln(view, s)` writes
`s` and a newline to the view. -/
def TextBox.SetView {View Err : Type} [DecidableEq Err] (e : Env)
    (lib : gocui.Lib View Err) (self : TextBox) : SetViewOutcome View Err :=
  match self.align e with
  | .abort msg box => .abort msg box
  | .ok self =>
    let r := lib.SetView self.gui self.name self.left self.top self.right self.bottom
    let view := r.1
    let err := r.2
    if err ≠ some lib.ErrUnknownView then .ret self [] err
    else .ret self [(view, self.Repr ++ "\n")] none

/-- A stand-in for the terminal library in which the views named in `existing`
are already there: a request for another name creates the view and reports
`ErrUnknownView`, a request for an existing name reports no error.  A view is
identified by its name. -/
def sampleLib (existing : List String) : gocui.Lib String String :=
  { ErrUnknownView := "unknown view",
    SetView := fun _ name _ _ _ _ =>
      (name, if name ∈ existing then none else some "unknown view") }

/-- The top that the position policy of the specification resolves a
requested `top` to, over the integers: 0 below 0,
`maxHeight - 2 - 2*marginY - 2*outerMarginY` above `maxHeight`, the request
itself in between; the rules are tried in the order in which they are listed. -/
def topPolicy (e : Env) (t : TextBox) (top : Int) : Int :=
  if top < 0 then 0
  else if top > e.MaxY.val then e.MaxY.val - 2 - 2 * t.marginY.val - 2 * e.MarginY.val
  else top

/-- One call on a box that exists: a public setter, or `align`. -/
inductive Call where
  | SetHAlign (v : TextHAlign)
  | SetVAlign (v : TextVAlign)
  | SetText (text : String)
  | SetMarginX (marginX : GoInt)
  | SetMarginY (marginY : GoInt)
  | SetPos (top left : GoInt)
  | align
deriving DecidableEq

/-- Runs one call in the environment current at that moment. -/
def Call.run (e : Env) (c : Call) (t : TextBox) : Outcome :=
  match c with
  | .SetHAlign v => t.SetHAlign v
  | .SetVAlign v => t.SetVAlign v
  | .SetText text => .ok (t.SetText text)
  | .SetMarginX v => .ok (t.SetMarginX v)
  | .SetMarginY v => .ok (t.SetMarginY v)
  | .SetPos top left => .ok (t.SetPos e top left)
  | .align => t.align e

/-- Runs a sequence of calls, each with the environment current at its
moment; the first call that stops the program ends the run. -/
def runCalls : List (Env × Call) → TextBox → Outcome
  | [], t => .ok t
  | (e, c) :: cs, t =>
    match c.run e t with
    | .ok t => runCalls cs t
    | .abort msg box => .abort msg box

/-- A sample run on an 80 by 24 terminal that shrinks to 40 by 12 on the way:
move the box, align it, change both alignments, the text and the margins, and
align again. -/
def sampleCalls : List (Env × Call) :=
  [(envOfSize 80 24, .SetPos 100 1000), (envOfSize 80 24, .align),
   (envOfSize 80 24, .SetHAlign TextHAlignLeft),
   (envOfSize 80 24, .SetVAlign TextVAlignTop),
   (envOfSize 40 12, .SetText "bye"), (envOfSize 40 12, .SetMarginX 0),
   (envOfSize 40 12, .SetMarginY 0), (envOfSize 40 12, .align)]

/-- The box that `sampleCalls` makes of the box `hello2` of `main.go`. -/
def sampleCallsResult : TextBox :=
  { gui := 0, name := "hello2", text := "bye", halign := TextHAlignLeft,
    valign := TextVAlignTop, marginX := 0, marginY := 0, top := 9, left := 37,
    width := 3, height := 2, bottom := 11, right := 40, repr := "bye" }

/-- A fresh box with the margin-X `2^62`, whose doubled margin does not fit in
an `int`. -/
def wideMarginBox : TextBox :=
  { defaultBox "box" 0 with marginX := 4611686018427387904 }

/-- The box `hello0` with vertical alignment Bottom and the margin-Y `2^62`. -/
def tallMarginBox : TextBox :=
  { hello0Box with marginY := 4611686018427387904, valign := TextVAlignBottom }

/-- A fresh box with the margin-Y `2^62 + 2^61`. -/
def tallerMarginBox : TextBox :=
  { defaultBox "box" 0 with marginY := 6917529027641081856 }

/-- Options that leave a box of width 2 at left `2^63 - 2`: the position is
resolved while the margin-X is `2^62 + 41`. -/
def farRightOptions : List Option :=
  [WithMarginX 4611686018427387945, WithPos 0 1000, WithMarginX 1]

/-- Options that leave a box at left -2 with the margin-X `2^62`: the position
is resolved while the box is two columns wider than the terminal. -/
def leftOfOriginOptions : List Option :=
  [WithText "aa", WithMarginX 40, WithPos 0 1000, WithText "", WithMarginX 4611686018427387904]

end textbox

/-! ## Facts about `int` arithmetic -/

namespace GoInt

theorem lt_def (a b : GoInt) : a < b ↔ a.val < b.val := Iff.rfl

theorem le_def (a b : GoInt) : a ≤ b ↔ a.val ≤ b.val := Iff.rfl

theorem add_val (a b : GoInt) : (a + b).val = wrap64 (a.val + b.val) := rfl

theorem sub_val (a b : GoInt) : (a - b).val = wrap64 (a.val - b.val) := rfl

theorem mul_val (a b : GoInt) : (a * b).val = wrap64 (a.val * b.val) := rfl

theorem val_zero : (0 : GoInt).val = 0 := by decide

theorem val_one : (1 : GoInt).val = 1 := by decide

theorem val_two : (2 : GoInt).val = 2 := by decide

theorem val_ofInt_of_inInt64 (x : Int) (h : inInt64 x) : (ofInt x).val = x := by
  unfold inInt64 at h
  simp only [ofInt, wrap64]
  omega

end GoInt

namespace textbox

/-! ## General facts about `align` -/

theorem align_eq_alignText_alignRect (e : Env) (t : TextBox) :
    t.align e = alignText (alignRect e t) := rfl

theorem alignRect_fields (e : Env) (t : TextBox) :
    (alignRect e t).width = boxWidth e t ∧
    (alignRect e t).height = boxHeight e t ∧
    (alignRect e t).left
      = (if t.left + boxWidth e t > e.MaxX then e.MaxX - boxWidth e t else t.left) ∧
    (alignRect e t).right
      = (if t.left + boxWidth e t > e.MaxX then e.MaxX else t.left + boxWidth e t) ∧
    (alignRect e t).top
      = (if t.top + boxHeight e t > e.MaxY then e.MaxY - boxHeight e t - 1 else t.top) ∧
    (alignRect e t).bottom
      = (if t.top + boxHeight e t > e.MaxY then e.MaxY - 1 else t.top + boxHeight e t) := by
  simp only [alignRect, boxWidth, boxHeight]
  split_ifs <;> simp

theorem alignRect_frame (e : Env) (t : TextBox) :
    (alignRect e t).gui = t.gui ∧ (alignRect e t).name = t.name ∧
    (alignRect e t).text = t.text ∧ (alignRect e t).halign = t.halign ∧
    (alignRect e t).valign = t.valign ∧ (alignRect e t).marginX = t.marginX ∧
    (alignRect e t).marginY = t.marginY ∧ (alignRect e t).repr = t.repr := by
  simp only [alignRect]
  split_ifs <;> simp

theorem validHAlign_eq_none_iff (v : TextHAlign) :
    validHAlign v = none ↔ v = 1 ∨ v = 2 ∨ v = 3 := by
  simp only [validHAlign, TextHAlignCenter, TextHAlignLeft, TextHAlignRight]
  split_ifs <;> simp_all

theorem validVAlign_eq_none_iff (v : TextVAlign) :
    validVAlign v = none ↔ v = 1 ∨ v = 2 ∨ v = 3 := by
  simp only [validVAlign, TextVAlignCenter, TextVAlignTop, TextVAlignBottom]
  split_ifs <;> simp_all

theorem alignText_of_valid (s : TextBox) (hh : validHAlign s.halign = none)
    (hv : validVAlign s.valign = none) :
    alignText s
      = .ok { s with repr := padLoop " " (hPad s) (padLoop "\n" (vPad s) "") ++ s.text } := by
  rw [validHAlign_eq_none_iff] at hh
  rw [validVAlign_eq_none_iff] at hv
  rcases hh with hh | hh | hh <;> rcases hv with hv | hv | hv <;>
    simp [alignText, vPad, hPad, hh, hv, TextHAlignCenter, TextHAlignLeft, TextHAlignRight,
      TextVAlignCenter, TextVAlignTop, TextVAlignBottom]

theorem alignText_box (s : TextBox) :
    (alignText s).box = { s with repr := (alignText s).box.repr } := by
  simp only [alignText]
  split_ifs <;> simp [Outcome.box]

theorem align_of_valid (e : Env) (t : TextBox) (hh : validHAlign t.halign = none)
    (hv : validVAlign t.valign = none) :
    t.align e = .ok { alignRect e t with
      repr := padLoop " " (hPad t) (padLoop "\n" (vPad t) "") ++ t.text } := by
  have hf := alignRect_frame e t
  rw [align_eq_alignText_alignRect, alignText_of_valid]
  · simp [vPad, hPad, hf]
  · rw [hf.2.2.2.1]; exact hh
  · rw [hf.2.2.2.2.1]; exact hv

theorem align_box (e : Env) (t : TextBox) :
    (t.align e).box = { alignRect e t with repr := (t.align e).box.repr } := by
  rw [align_eq_alignText_alignRect]
  exact alignText_box _

theorem align_box_fields (e : Env) (t : TextBox) :
    (t.align e).box.width = boxWidth e t ∧
    (t.align e).box.height = boxHeight e t ∧
    (t.align e).box.left
      = (if t.left + boxWidth e t > e.MaxX then e.MaxX - boxWidth e t else t.left) ∧
    (t.align e).box.right
      = (if t.left + boxWidth e t > e.MaxX then e.MaxX else t.left + boxWidth e t) ∧
    (t.align e).box.top
      = (if t.top + boxHeight e t > e.MaxY then e.MaxY - boxHeight e t - 1 else t.top) ∧
    (t.align e).box.bottom
      = (if t.top + boxHeight e t > e.MaxY then e.MaxY - 1 else t.top + boxHeight e t) := by
  rw [align_box]
  exact alignRect_fields e t

theorem align_returned_of_valid (e : Env) (t : TextBox) (hh : validHAlign t.halign = none)
    (hv : validVAlign t.valign = none) : (t.align e).returned = true := by
  rw [align_of_valid e t hh hv]; rfl

theorem boxWidth_val (e : Env) (t : TextBox) :
    (boxWidth e t).val = wrap64 (exactWidth e t) := by
  simp only [boxWidth, exactWidth, GoInt.add_val, GoInt.mul_val, GoInt.val_two, wrap64]
  omega

theorem boxHeight_val (e : Env) (t : TextBox) :
    (boxHeight e t).val = wrap64 (exactHeight e t) := by
  simp only [boxHeight, exactHeight, GoInt.add_val, GoInt.mul_val, GoInt.val_two, wrap64]
  omega

/-! ## C1: the rectangle ends inside the terminal -/

theorem SetHAlign_cases (t : TextBox) (v : TextHAlign) :
    (validHAlign v = none ∧ t.SetHAlign v = .ok { t with halign := v }) ∨
    (validHAlign v ≠ none ∧ ∃ msg, t.SetHAlign v = .abort msg t) := by
  unfold TextBox.SetHAlign
  cases h : validHAlign v with
  | none => exact Or.inl ⟨rfl, rfl⟩
  | some err => exact Or.inr ⟨by simp, err, rfl⟩

theorem SetVAlign_cases (t : TextBox) (v : TextVAlign) :
    (validVAlign v = none ∧ t.SetVAlign v = .ok { t with valign := v }) ∨
    (validVAlign v ≠ none ∧ ∃ msg, t.SetVAlign v = .abort msg t) := by
  unfold TextBox.SetVAlign
  cases h : validVAlign v with
  | none => exact Or.inl ⟨rfl, rfl⟩
  | some err => exact Or.inr ⟨by simp, err, rfl⟩

theorem applyOptions_append (e : Env) (ps qs : List Option) (t : TextBox) :
    applyOptions e (ps ++ qs) t
      = (match applyOptions e ps t with
        | .ok t' => applyOptions e qs t'
        | .abort msg box => .abort msg box) := by
  induction ps generalizing t with
  | nil => simp [applyOptions]
  | cons o ps ih =>
    simp only [List.cons_append, applyOptions]
    cases o.Apply e t with
    | ok t' => simpa using ih t'
    | abort msg box => simp

theorem Apply_preserves_valid (e : Env) (o : Option) (t t' : TextBox)
    (h : o.Apply e t = .ok t')
    (hv : validHAlign t.halign = none ∧ validVAlign t.valign = none) :
    validHAlign t'.halign = none ∧ validVAlign t'.valign = none := by
  cases o with
  | TextHAlign v =>
    simp only [Option.Apply, TextBox.SetHAlign] at h
    split at h
    · simp at h
    · next hn => simp only [Outcome.ok.injEq] at h; subst h; exact ⟨hn, hv.2⟩
  | TextVAlign v =>
    simp only [Option.Apply, TextBox.SetVAlign] at h
    split at h
    · simp at h
    · next hn => simp only [Outcome.ok.injEq] at h; subst h; exact ⟨hv.1, hn⟩
  | Text v => simp only [Option.Apply, TextBox.SetText, Outcome.ok.injEq] at h; subst h; exact hv
  | MarginX v =>
    simp only [Option.Apply, TextBox.SetMarginX, Outcome.ok.injEq] at h; subst h; exact hv
  | MarginY v =>
    simp only [Option.Apply, TextBox.SetMarginY, Outcome.ok.injEq] at h; subst h; exact hv
  | Pos top left => simp only [Option.Apply, Outcome.ok.injEq] at h; subst h; exact hv

theorem applyOptions_preserves_valid (e : Env) (os : List Option) (t t' : TextBox)
    (h : applyOptions e os t = .ok t')
    (hv : validHAlign t.halign = none ∧ validVAlign t.valign = none) :
    validHAlign t'.halign = none ∧ validVAlign t'.valign = none := by
  induction os generalizing t with
  | nil => simp only [applyOptions, Outcome.ok.injEq] at h; subst h; exact hv
  | cons o os ih =>
    simp only [applyOptions] at h
    cases ho : o.Apply e t with
    | ok t1 =>
      rw [ho] at h
      exact ih t1 h (Apply_preserves_valid e o t t1 ho hv)
    | abort msg box => rw [ho] at h; simp at h

theorem New_valid (e : Env) (gui : Gui) (name : String) (os : List Option) (t : TextBox)
    (h : New e gui name os = .ok t) :
    validHAlign t.halign = none ∧ validVAlign t.valign = none := by
  exact applyOptions_preserves_valid e os _ t h ⟨rfl, rfl⟩

theorem New_append_singleton (e : Env) (gui : Gui) (name : String) (cfg : List Option)
    (o : Option) (t : TextBox) (h : New e gui name (cfg ++ [o]) = .ok t) :
    ∃ t1, New e gui name cfg = .ok t1 ∧ o.Apply e t1 = .ok t := by
  simp only [New, applyOptions_append] at h ⊢
  cases h1 : applyOptions e cfg (TextBox.zero.init name gui) with
  | ok t1 =>
    rw [h1] at h
    refine ⟨t1, rfl, ?_⟩
    simp only [applyOptions] at h
    cases h2 : o.Apply e t1 with
    | ok t2 => rw [h2] at h; exact h
    | abort msg box => rw [h2] at h; simp at h
  | abort msg box => rw [h1] at h; simp at h

theorem align_ok_fields (e : Env) (t t' : TextBox) (h : t.align e = .ok t') :
    t'.width = boxWidth e t ∧
    t'.height = boxHeight e t ∧
    t'.left = (if t.left + boxWidth e t > e.MaxX then e.MaxX - boxWidth e t else t.left) ∧
    t'.right = (if t.left + boxWidth e t > e.MaxX then e.MaxX else t.left + boxWidth e t) ∧
    t'.top = (if t.top + boxHeight e t > e.MaxY then e.MaxY - boxHeight e t - 1 else t.top) ∧
    t'.bottom
      = (if t.top + boxHeight e t > e.MaxY then e.MaxY - 1 else t.top + boxHeight e t) := by
  have hf := align_box_fields e t
  rw [h] at hf
  exact hf

theorem posLeft_val (e : Env) (t : TextBox) :
    (e.MaxX - len t.text - t.marginX * 2 - e.MarginX * 2).val
      = wrap64 (e.MaxX.val - exactWidth e t) := by
  simp only [exactWidth, GoInt.sub_val, GoInt.mul_val, GoInt.val_two, wrap64]
  omega

theorem posTop_val (e : Env) (t : TextBox) :
    (e.MaxY - 2 - t.marginY * 2 - e.MarginY * 2).val
      = wrap64 (e.MaxY.val - exactHeight e t) := by
  simp only [exactHeight, GoInt.sub_val, GoInt.mul_val, GoInt.val_two, wrap64]
  omega

theorem Apply_no_pos_keeps_top_left (e : Env) (o : Option) (t t' : TextBox)
    (hk : o.kind ≠ 5) (h : o.Apply e t = .ok t') : t'.top = t.top ∧ t'.left = t.left := by
  cases o with
  | TextHAlign v =>
    rcases SetHAlign_cases t v with ⟨-, h2⟩ | ⟨-, msg, h2⟩ <;>
      simp only [Option.Apply, h2, Outcome.ok.injEq] at h
    · subst h; exact ⟨rfl, rfl⟩
    · exact absurd h (by simp)
  | TextVAlign v =>
    rcases SetVAlign_cases t v with ⟨-, h2⟩ | ⟨-, msg, h2⟩ <;>
      simp only [Option.Apply, h2, Outcome.ok.injEq] at h
    · subst h; exact ⟨rfl, rfl⟩
    · exact absurd h (by simp)
  | Text v => simp only [Option.Apply, Outcome.ok.injEq] at h; subst h; exact ⟨rfl, rfl⟩
  | MarginX v => simp only [Option.Apply, Outcome.ok.injEq] at h; subst h; exact ⟨rfl, rfl⟩
  | MarginY v => simp only [Option.Apply, Outcome.ok.injEq] at h; subst h; exact ⟨rfl, rfl⟩
  | Pos top left => exact absurd rfl hk

theorem Apply_align_keeps_size (e : Env) (o : Option) (t t' : TextBox)
    (hk : o.kind = 0 ∨ o.kind = 1) (h : o.Apply e t = .ok t') :
    t'.text = t.text ∧ t'.marginX = t.marginX ∧ t'.marginY = t.marginY ∧
    t'.top = t.top ∧ t'.left = t.left := by
  cases o with
  | TextHAlign v =>
    rcases SetHAlign_cases t v with ⟨-, h2⟩ | ⟨-, msg, h2⟩ <;>
      simp only [Option.Apply, h2, Outcome.ok.injEq] at h
    · subst h; exact ⟨rfl, rfl, rfl, rfl, rfl⟩
    · exact absurd h (by simp)
  | TextVAlign v =>
    rcases SetVAlign_cases t v with ⟨-, h2⟩ | ⟨-, msg, h2⟩ <;>
      simp only [Option.Apply, h2, Outcome.ok.injEq] at h
    · subst h; exact ⟨rfl, rfl, rfl, rfl, rfl⟩
    · exact absurd h (by simp)
  | Text v => simp [Option.kind] at hk
  | MarginX v => simp [Option.kind] at hk
  | MarginY v => simp [Option.kind] at hk
  | Pos top left => simp [Option.kind] at hk

theorem applyOptions_no_pos_keeps_top_left (e : Env) (os : List Option) (t t' : TextBox)
    (hk : ∀ o ∈ os, o.kind ≠ 5) (h : applyOptions e os t = .ok t') :
    t'.top = t.top ∧ t'.left = t.left := by
  induction os generalizing t with
  | nil => simp only [applyOptions, Outcome.ok.injEq] at h; subst h; exact ⟨rfl, rfl⟩
  | cons o os ih =>
    simp only [applyOptions] at h
    cases ho : o.Apply e t with
    | ok t1 =>
      rw [ho] at h
      have h1 := Apply_no_pos_keeps_top_left e o t t1 (hk o (List.mem_cons_self _ _)) ho
      have h2 := ih t1 (fun o ho => hk o (List.mem_cons_of_mem _ ho)) h
      exact ⟨h2.1.trans h1.1, h2.2.trans h1.2⟩
    | abort msg box => rw [ho] at h; simp at h

theorem applyOptions_align_keeps_size (e : Env) (os : List Option) (t t' : TextBox)
    (hk : ∀ o ∈ os, o.kind = 0 ∨ o.kind = 1) (h : applyOptions e os t = .ok t') :
    t'.text = t.text ∧ t'.marginX = t.marginX ∧ t'.marginY = t.marginY ∧
    t'.top = t.top ∧ t'.left = t.left := by
  induction os generalizing t with
  | nil =>
    simp only [applyOptions, Outcome.ok.injEq] at h; subst h
    exact ⟨rfl, rfl, rfl, rfl, rfl⟩
  | cons o os ih =>
    simp only [applyOptions] at h
    cases ho : o.Apply e t with
    | ok t1 =>
      rw [ho] at h
      obtain ⟨a1, a2, a3, a4, a5⟩ :=
        Apply_align_keeps_size e o t t1 (hk o (List.mem_cons_self _ _)) ho
      obtain ⟨b1, b2, b3, b4, b5⟩ := ih t1 (fun o ho => hk o (List.mem_cons_of_mem _ ho)) h
      exact ⟨b1.trans a1, b2.trans a2, b3.trans a3, b4.trans a4, b5.trans a5⟩
    | abort msg box => rw [ho] at h; simp at h

theorem align_left_top_nonneg_of_fits (e : Env) (t : TextBox)
    (hh : validHAlign t.halign = none) (hv : validVAlign t.valign = none)
    (hl : t.left = 0 ∨ t.left = e.MaxX - len t.text - t.marginX * 2 - e.MarginX * 2)
    (ht : (0 ≤ t.top ∧ t.top ≤ e.MaxY) ∨
      t.top = e.MaxY - 2 - t.marginY * 2 - e.MarginY * 2)
    (hw0 : 0 ≤ exactWidth e t) (hw : exactWidth e t ≤ e.MaxX.val)
    (hh0 : 0 ≤ exactHeight e t) (hh1 : exactHeight e t + 1 ≤ e.MaxY.val) :
    ∃ t', t.align e = .ok t' ∧ 0 ≤ t'.left ∧ 0 ≤ t'.top := by
  refine ⟨_, align_of_valid e t hh hv, ?_⟩
  obtain ⟨-, -, hl', -, ht', -⟩ := align_ok_fields e _ _ (align_of_valid e t hh hv)
  have hW := boxWidth_val e t
  have hH := boxHeight_val e t
  have hpl := posLeft_val e t
  have hpt := posTop_val e t
  have rX := e.MaxX.inRange
  have rY := e.MaxY.inRange
  rw [hl', ht']
  constructor
  · rcases hl with hl | hl
    · rw [hl]
      split_ifs
      · simp only [GoInt.le_def, GoInt.sub_val, GoInt.val_zero, wrap64, inInt64] at *
        omega
      · exact Int.le_refl _
    · rw [hl]
      split_ifs
      · simp only [GoInt.le_def, GoInt.sub_val, GoInt.val_zero, wrap64, inInt64] at *
        omega
      · simp only [GoInt.le_def, GoInt.val_zero, wrap64, inInt64] at *
        omega
  · rcases ht with ht | ht
    · split_ifs
      · simp only [GoInt.le_def, GoInt.sub_val, GoInt.val_zero, GoInt.val_one, wrap64,
          inInt64] at *
        omega
      · exact ht.1
    · rw [ht]
      split_ifs
      · simp only [GoInt.le_def, GoInt.sub_val, GoInt.val_zero, GoInt.val_one, wrap64,
          inInt64] at *
        omega
      · simp only [GoInt.le_def, GoInt.val_zero, wrap64, inInt64] at *
        omega

/-! ## C2: the top-left corner and the origin -/

/-- C2 fails on the code: the box `hello0` of `main.go` (margins 3 and 3,
requested position (0, 0)) on a terminal of 10 columns and 5 rows is wider and
taller than the terminal, and `align` moves its corner to left -2, top -4.
A box that fits can end left of the origin too when a margin option follows
the position option: on an 80 by 24 terminal the options margin-X 50,
position (0, 1000), margin-X 1 give left -20, and `align` keeps it. -/
theorem align_left_top_negative_on_small_terminal :
    (0 ≤ (envOfSize 10 5).MaxX ∧ 0 ≤ (envOfSize 10 5).MaxY ∧
      (main.hello0 (envOfSize 10 5) 0).returned = true ∧
      ((main.hello0 (envOfSize 10 5) 0).box.align (envOfSize 10 5)).returned = true ∧
      ((main.hello0 (envOfSize 10 5) 0).box.align (envOfSize 10 5)).box.left = -2 ∧
      ((main.hello0 (envOfSize 10 5) 0).box.align (envOfSize 10 5)).box.top = -4) ∧
    ((New (envOfSize 80 24) 0 "box"
        [WithMarginX 50, WithPos 0 1000, WithMarginX 1]).returned = true ∧
      ((New (envOfSize 80 24) 0 "box"
        [WithMarginX 50, WithPos 0 1000, WithMarginX 1]).box.align (envOfSize 80 24)).returned
        = true ∧
      ((New (envOfSize 80 24) 0 "box"
        [WithMarginX 50, WithPos 0 1000, WithMarginX 1]).box.align (envOfSize 80 24)).box.width
        = 2 ∧
      ((New (envOfSize 80 24) 0 "box"
        [WithMarginX 50, WithPos 0 1000, WithMarginX 1]).box.align (envOfSize 80 24)).box.left
        = -20) := by
  decide

/-- C2, amended. For a box built by `New` from an option list in which no
text or margin option follows the last position option (a list without
position option included), in any environment: when the box fits the
terminal, `0 ≤ width ≤ MaxX` and `0 ≤ height`, `height + 1 ≤ MaxY` for the
sums `width = len(text) + 2*marginX + 2*env.MarginX` and
`height = 2 + 2*marginY + 2*env.MarginY` taken over the integers, `align`
returns and the box it returns has `left ≥ 0` and `top ≥ 0`. -/
theorem New_align_left_top_nonneg_of_fits (e : Env) (gui : Gui) (name : String)
    (options : List Option) (t : TextBox)
    (hlist : (∀ o ∈ options, o.kind ≠ 5) ∨
      ∃ pre top left post, options = pre ++ WithPos top left :: post ∧
        ∀ o ∈ post, o.kind = 0 ∨ o.kind = 1)
    (hnew : New e gui name options = .ok t)
    (hw0 : 0 ≤ exactWidth e t) (hw : exactWidth e t ≤ e.MaxX.val)
    (hh0 : 0 ≤ exactHeight e t) (hh1 : exactHeight e t + 1 ≤ e.MaxY.val) :
    ∃ t', t.align e = .ok t' ∧ 0 ≤ t'.left ∧ 0 ≤ t'.top := by
  have hval := New_valid e gui name _ t hnew
  have hY : (0 : GoInt) ≤ e.MaxY := by
    simp only [GoInt.le_def, GoInt.val_zero]; omega
  rcases hlist with hk | ⟨pre, top, left, post, hos, hk⟩
  · obtain ⟨h1, h2⟩ := applyOptions_no_pos_keeps_top_left e options _ t hk hnew
    refine align_left_top_nonneg_of_fits e t hval.1 hval.2 (Or.inl h2) (Or.inl ?_)
      hw0 hw hh0 hh1
    rw [h1]
    exact ⟨Int.le_refl _, hY⟩
  · subst hos
    simp only [New, applyOptions_append] at hnew
    cases h1 : applyOptions e pre (TextBox.zero.init name gui) with
    | abort msg box => rw [h1] at hnew; simp at hnew
    | ok t1 =>
      rw [h1] at hnew
      simp only [applyOptions, WithPos, Option.Apply] at hnew
      obtain ⟨a1, a2, a3, a4, a5⟩ := applyOptions_align_keeps_size e post _ t hk hnew
      simp only at a1 a2 a3 a4 a5
      refine align_left_top_nonneg_of_fits e t hval.1 hval.2 ?_ ?_ hw0 hw hh0 hh1
      · rw [a5, a1, a2]
        simp only [validTopLeft]
        split_ifs
        · exact Or.inl rfl
        · exact Or.inr rfl
        · exact Or.inl rfl
      · rw [a4, a3]
        simp only [validTopLeft]
        split_ifs with c1 c2
        · exact Or.inl ⟨Int.le_refl _, hY⟩
        · exact Or.inr rfl
        · refine Or.inl ⟨?_, ?_⟩
          · simp only [GoInt.lt_def, GoInt.le_def, GoInt.val_zero] at c1 ⊢; omega
          · simp only [gt_iff_lt, GoInt.lt_def, GoInt.le_def] at c2 ⊢; omega

/-- C2 amended, at the box `hello0` of `main.go` on an 80 by 24 terminal. -/
theorem New_align_left_top_nonneg_of_fits_witness :
    ((∀ o ∈ [WithText "hello0", WithHAlign TextHAlignCenter, WithVAlign TextVAlignCenter,
          WithMarginX 3, WithMarginY 3, WithPos 0 0], Option.kind o ≠ 5) ∨
      ∃ pre top left post,
        [WithText "hello0", WithHAlign TextHAlignCenter, WithVAlign TextVAlignCenter,
          WithMarginX 3, WithMarginY 3, WithPos 0 0] = pre ++ WithPos top left :: post ∧
        ∀ o ∈ post, Option.kind o = 0 ∨ Option.kind o = 1) ∧
    main.hello0 (envOfSize 80 24) 0 = .ok (main.hello0 (envOfSize 80 24) 0).box ∧
    (0 ≤ exactWidth (envOfSize 80 24) (main.hello0 (envOfSize 80 24) 0).box ∧
      exactWidth (envOfSize 80 24) (main.hello0 (envOfSize 80 24) 0).box
        ≤ (envOfSize 80 24).MaxX.val ∧
      0 ≤ exactHeight (envOfSize 80 24) (main.hello0 (envOfSize 80 24) 0).box ∧
      exactHeight (envOfSize 80 24) (main.hello0 (envOfSize 80 24) 0).box + 1
        ≤ (envOfSize 80 24).MaxY.val) ∧
    ∃ t', (main.hello0 (envOfSize 80 24) 0).box.align (envOfSize 80 24) = .ok t' ∧
      0 ≤ t'.left ∧ 0 ≤ t'.top :=
  ⟨Or.inr ⟨[WithText "hello0", WithHAlign TextHAlignCenter, WithVAlign TextVAlignCenter,
      WithMarginX 3, WithMarginY 3], 0, 0, [], rfl, by simp⟩,
    by decide, ⟨by decide, by decide, by decide, by decide⟩,
    New_align_left_top_nonneg_of_fits (envOfSize 80 24) 0 "hello0"
      [WithText "hello0", WithHAlign TextHAlignCenter, WithVAlign TextVAlignCenter,
       WithMarginX 3, WithMarginY 3, WithPos 0 0] (main.hello0 (envOfSize 80 24) 0).box
      (Or.inr ⟨[WithText "hello0", WithHAlign TextHAlignCenter, WithVAlign TextVAlignCenter,
        WithMarginX 3, WithMarginY 3], 0, 0, [], rfl, by simp⟩)
      (by decide) (by decide) (by decide) (by decide) (by decide)⟩

/-! ## C3: a requested left inside the terminal -/

/-- C3 fails on the code. On an 80 by 24 terminal `CenterX` is 40, which lies
in `0 ..= MaxX`; the box `hello1` of `main.go`, built with
`WithPos(CenterY, CenterX)`, gets left 0 and not 40, and so does `SetPos` on a
fresh box.  The requested top, 12, is kept. -/
theorem hello1_left_is_zero_not_CenterX :
    (envOfSize 80 24).CenterX = 40 ∧ (envOfSize 80 24).CenterY = 12 ∧
    0 ≤ (envOfSize 80 24).CenterX ∧ (envOfSize 80 24).CenterX ≤ (envOfSize 80 24).MaxX ∧
    (main.hello1 (envOfSize 80 24) 0).returned = true ∧
    (main.hello1 (envOfSize 80 24) 0).box.left = 0 ∧
    (main.hello1 (envOfSize 80 24) 0).box.top = 12 ∧
    ((defaultBox "hello1" 0).SetPos (envOfSize 80 24) 12 40).left = 0 := by
  decide

/-! ## C4: a requested top below the terminal -/

/-- C4 fails on the code: on an 80 by 24 terminal a fresh box (height 4) asked
to sit at top 100 is moved to top 20 by `SetPos`, and after `align` its bottom
is 24, which is `MaxY` and not `MaxY - 1`.  The re-anchoring of `align` itself
does what the claim says: the same box asked to sit at top 24, which `SetPos`
keeps, is moved to top 19 with its bottom on 23. -/
theorem SetPos_align_bottom_is_MaxY_example :
    ((100 : GoInt) > (envOfSize 80 24).MaxY ∧
      (((defaultBox "box" 0).SetPos (envOfSize 80 24) 100 0).align (envOfSize 80 24)).returned
        = true ∧
      ((defaultBox "box" 0).SetPos (envOfSize 80 24) 100 0).top = 20 ∧
      (((defaultBox "box" 0).SetPos (envOfSize 80 24) 100 0).align (envOfSize 80 24)).box.bottom
        = 24 ∧
      (((defaultBox "box" 0).SetPos (envOfSize 80 24) 100 0).align (envOfSize 80 24)).box.bottom
        ≠ (envOfSize 80 24).MaxY - 1) ∧
    (((defaultBox "box" 0).SetPos (envOfSize 80 24) 24 0).top = 24 ∧
      (((defaultBox "box" 0).SetPos (envOfSize 80 24) 24 0).align (envOfSize 80 24)).box.top
        = 19 ∧
      (((defaultBox "box" 0).SetPos (envOfSize 80 24) 24 0).align (envOfSize 80 24)).box.bottom
        = (envOfSize 80 24).MaxY - 1) := by
  decide

/-! ## C5: a requested left beyond the terminal -/

/-- C5 fails on the code when the width overflows: on an 80 by 24 terminal a
fresh box with margin-X `2^62` asked to sit at left 1000 gets left `80 - 2^63`
from `SetPos`, and `align` keeps it and computes the width `-2^63`; over the
integers `MaxX - width` is `80 + 2^63`, not the left of the box. -/
theorem SetPos_align_left_ne_MaxX_sub_width_on_overflow :
    (1000 : GoInt) > (envOfSize 80 24).MaxX ∧
    (0 : GoInt) ≤ wideMarginBox.marginX ∧
    (wideMarginBox.SetPos (envOfSize 80 24) 0 1000).left.val = -9223372036854775728 ∧
    ((wideMarginBox.SetPos (envOfSize 80 24) 0 1000).align (envOfSize 80 24)).box.left.val
      = -9223372036854775728 ∧
    ((wideMarginBox.SetPos (envOfSize 80 24) 0 1000).align (envOfSize 80 24)).box.width.val
      = -9223372036854775808 ∧
    ((wideMarginBox.SetPos (envOfSize 80 24) 0 1000).align (envOfSize 80 24)).box.left.val
      ≠ (envOfSize 80 24).MaxX.val
        - ((wideMarginBox.SetPos (envOfSize 80 24) 0 1000).align
            (envOfSize 80 24)).box.width.val := by
  decide

/-- C5, amended. For every box and every environment whose `MaxX` is a
terminal width (not negative), if the requested left is above `MaxX` then
`SetPos` sets `left = MaxX - len(text) - 2*marginX - 2*env.MarginX`, and after
the following `align` the right edge is `MaxX` and the left edge is
`MaxX - width`, all in wrap-around `int` arithmetic; the two equations for
`left` hold over the integers when the sum
`len(text) + 2*marginX + 2*env.MarginX` and its difference from `MaxX` are in
the `int` range.  `align` returns when the alignments are valid. -/
theorem SetPos_align_right_eq_MaxX (e : Env) (t : TextBox) (top left : GoInt)
    (hX : 0 ≤ e.MaxX) (h : left > e.MaxX) :
    (t.SetPos e top left).left = e.MaxX - len t.text - t.marginX * 2 - e.MarginX * 2 ∧
    ((t.SetPos e top left).align e).box.right = e.MaxX ∧
    ((t.SetPos e top left).align e).box.left
      = e.MaxX - ((t.SetPos e top left).align e).box.width ∧
    (inInt64 (exactWidth e t) → inInt64 (e.MaxX.val - exactWidth e t) →
      (t.SetPos e top left).left.val
        = e.MaxX.val - (len t.text).val - 2 * t.marginX.val - 2 * e.MarginX.val ∧
      ((t.SetPos e top left).align e).box.left.val
        = e.MaxX.val - ((t.SetPos e top left).align e).box.width.val) ∧
    (validHAlign t.halign = none → validVAlign t.valign = none →
      ((t.SetPos e top left).align e).returned = true) := by
  obtain ⟨hw, -, hl, hr, -, -⟩ := align_box_fields e (t.SetPos e top left)
  have hbw : boxWidth e (t.SetPos e top left) = boxWidth e t := rfl
  have hW := boxWidth_val e t
  have hP := posLeft_val e t
  have rX := e.MaxX.inRange
  have hs : (t.SetPos e top left).left
      = e.MaxX - len t.text - t.marginX * 2 - e.MarginX * 2 := by
    have h0 : ¬ left < 0 := by
      simp only [gt_iff_lt, GoInt.lt_def, GoInt.le_def, GoInt.val_zero] at hX h ⊢; omega
    simp only [TextBox.SetPos, validTopLeft, if_neg h0, if_pos h]
  have hsum : e.MaxX - len t.text - t.marginX * 2 - e.MarginX * 2 + boxWidth e t = e.MaxX := by
    apply GoInt.ext
    simp only [GoInt.add_val, hP, hW, wrap64, inInt64] at rX ⊢
    omega
  have hno : ¬ e.MaxX > e.MaxX := fun hc => Int.lt_irrefl _ hc
  rw [hbw, hs, hsum, if_neg hno] at hl hr
  rw [hbw] at hw
  have hdiff : e.MaxX - len t.text - t.marginX * 2 - e.MarginX * 2 = e.MaxX - boxWidth e t := by
    apply GoInt.ext
    simp only [GoInt.sub_val, hP, hW, wrap64]
    omega
  refine ⟨hs, hr, ?_, ?_, fun h1 h2 => align_returned_of_valid e _ h1 h2⟩
  · rw [hl, hw]; exact hdiff
  · intro i1 i2
    rw [hl, hw, hs, hP, hW]
    simp only [exactWidth, wrap64, inInt64] at i1 i2 ⊢
    omega

/-- C5 amended, at the box `hello0` asked to sit at left 1000 on an 80 by 24
terminal: its left becomes 68 and its right edge 80. -/
theorem SetPos_align_right_eq_MaxX_witness :
    (0 : GoInt) ≤ (envOfSize 80 24).MaxX ∧ (1000 : GoInt) > (envOfSize 80 24).MaxX ∧
    (hello0Box.SetPos (envOfSize 80 24) 0 1000).left = 68 ∧
    ((hello0Box.SetPos (envOfSize 80 24) 0 1000).align (envOfSize 80 24)).box.right = 80 :=
  ⟨by decide, by decide, by decide,
    (SetPos_align_right_eq_MaxX (envOfSize 80 24) hello0Box 0 1000 (by decide)
      (by decide)).2.1⟩

/-! ## C6: the padded text -/

theorem appendTimes_data (c : Char) (n : Nat) (text : String) :
    (appendTimes (String.mk [c]) n text).data = text.data ++ List.replicate n c := by
  induction n generalizing text with
  | zero => simp [appendTimes]
  | succ n ih =>
    simp only [appendTimes, ih, String.data_append, List.append_assoc]
    rw [List.replicate_succ]
    simp

/-- C6 fails on the code when a doubled margin overflows: the box `hello0` with
vertical alignment Bottom and the non-negative margin-Y `2^62` gets no newline
at all, because `marginY*2` wraps around to `-2^63` and the loop does not run;
its text is three spaces and "hello0". -/
theorem align_repr_no_padding_on_overflow :
    (0 : GoInt) ≤ tallMarginBox.marginY ∧
    tallMarginBox.valign = TextVAlignBottom ∧
    (tallMarginBox.align (envOfSize 80 24)).returned = true ∧
    (tallMarginBox.align (envOfSize 80 24)).box.repr = "   hello0" ∧
    (2 : Int) * tallMarginBox.marginY.val = 9223372036854775808 := by
  decide

/-- C6, amended. For every box with valid alignments and non-negative
margins, `align` returns and sets `repr` to `v` newlines, then `h` spaces, then
the text, where `v` is `marginY` for Center, 0 for Top and, for Bottom,
`2*marginY` if that is below `2^63` and 0 if it is not; `h` is `marginX` for
Center, 0 for Left and, for Right, `2*marginX` if that is below `2^63` and 0 if
it is not. -/
theorem align_repr_padding (e : Env) (t : TextBox)
    (hh : validHAlign t.halign = none) (hv : validVAlign t.valign = none)
    (hx : 0 ≤ t.marginX) (hy : 0 ≤ t.marginY) :
    ∃ (t' : TextBox) (v h : Nat), t.align e = .ok t' ∧
      (t.valign = TextVAlignCenter → (v : Int) = t.marginY.val) ∧
      (t.valign = TextVAlignTop → v = 0) ∧
      (t.valign = TextVAlignBottom →
        (2 * t.marginY.val < 9223372036854775808 → (v : Int) = 2 * t.marginY.val) ∧
        (9223372036854775808 ≤ 2 * t.marginY.val → v = 0)) ∧
      (t.halign = TextHAlignCenter → (h : Int) = t.marginX.val) ∧
      (t.halign = TextHAlignLeft → h = 0) ∧
      (t.halign = TextHAlignRight →
        (2 * t.marginX.val < 9223372036854775808 → (h : Int) = 2 * t.marginX.val) ∧
        (9223372036854775808 ≤ 2 * t.marginX.val → h = 0)) ∧
      t'.repr = String.mk (List.replicate v '\n' ++ List.replicate h ' ' ++ t.text.data) := by
  have rx := t.marginX.inRange
  have ry := t.marginY.inRange
  simp only [GoInt.le_def, GoInt.val_zero, inInt64] at hx hy rx ry
  refine ⟨_, (vPad t).val.toNat, (hPad t).val.toNat, align_of_valid e t hh hv,
    ?_, ?_, ?_, ?_, ?_, ?_, ?_⟩
  · intro h; simp only [vPad, h, if_true]; omega
  · intro h; simp [vPad, h, TextVAlignTop, TextVAlignCenter, GoInt.val_zero]
  · intro h
    have h1 : vPad t = t.marginY * 2 := by
      simp [vPad, h, TextVAlignBottom, TextVAlignTop, TextVAlignCenter]
    simp only [h1, GoInt.mul_val, GoInt.val_two, wrap64]
    constructor <;> intro _ <;> omega
  · intro h; simp only [hPad, h, if_true]; omega
  · intro h; simp [hPad, h, TextHAlignLeft, TextHAlignCenter, GoInt.val_zero]
  · intro h
    have h1 : hPad t = t.marginX * 2 := by
      simp [hPad, h, TextHAlignRight, TextHAlignLeft, TextHAlignCenter]
    simp only [h1, GoInt.mul_val, GoInt.val_two, wrap64]
    constructor <;> intro _ <;> omega
  · apply String.ext
    have h1 := appendTimes_data '\n' (vPad t).val.toNat ""
    have h2 := appendTimes_data ' ' (hPad t).val.toNat
      (appendTimes (String.mk ['\n']) (vPad t).val.toNat "")
    simp only [padLoop, String.data_append]
    exact (by rw [h1] at h2; simpa using congrArg (· ++ t.text.data) h2)

/-- C6 amended, at the box `hello0` of `main.go`: three newlines, three spaces,
the text. -/
theorem align_repr_padding_witness :
    (validHAlign hello0Box.halign = none ∧ validVAlign hello0Box.valign = none ∧
      0 ≤ hello0Box.marginX ∧ 0 ≤ hello0Box.marginY) ∧
    (hello0Box.align (envOfSize 80 24)).box.repr = "\n\n\n   hello0" ∧
    ∃ (t' : TextBox) (v h : Nat), hello0Box.align (envOfSize 80 24) = .ok t' ∧
      (hello0Box.valign = TextVAlignCenter → (v : Int) = hello0Box.marginY.val) ∧
      (hello0Box.valign = TextVAlignTop → v = 0) ∧
      (hello0Box.valign = TextVAlignBottom →
        (2 * hello0Box.marginY.val < 9223372036854775808 →
          (v : Int) = 2 * hello0Box.marginY.val) ∧
        (9223372036854775808 ≤ 2 * hello0Box.marginY.val → v = 0)) ∧
      (hello0Box.halign = TextHAlignCenter → (h : Int) = hello0Box.marginX.val) ∧
      (hello0Box.halign = TextHAlignLeft → h = 0) ∧
      (hello0Box.halign = TextHAlignRight →
        (2 * hello0Box.marginX.val < 9223372036854775808 →
          (h : Int) = 2 * hello0Box.marginX.val) ∧
        (9223372036854775808 ≤ 2 * hello0Box.marginX.val → h = 0)) ∧
      t'.repr
        = String.mk (List.replicate v '\n' ++ List.replicate h ' ' ++ hello0Box.text.data) :=
  ⟨⟨by decide, by decide, by decide, by decide⟩, by decide,
    align_repr_padding (envOfSize 80 24) hello0Box (by decide) (by decide) (by decide)
      (by decide)⟩

/-! ## C7: width and height -/

/-- C7 fails on the code when the sum overflows: on an 80 by 24 terminal a
fresh box (empty text) with the non-negative margin-X `2^62` gets the width
`-2^63` from `align`, while `len(text) + 2*marginX + 2*env.MarginX` is `2^63`. -/
theorem align_width_wraps_on_overflow :
    (0 : GoInt) ≤ wideMarginBox.marginX ∧
    (wideMarginBox.align (envOfSize 80 24)).box.width.val = -9223372036854775808 ∧
    (len wideMarginBox.text).val + 2 * wideMarginBox.marginX.val
      + 2 * (envOfSize 80 24).MarginX.val = 9223372036854775808 := by
  decide

/-- C7, amended. For every box (any text, any margins) and every environment,
after `align` the width is `len(text) + 2*marginX + 2*env.MarginX` and the
height is `2 + 2*marginY + 2*env.MarginY` in wrap-around `int` arithmetic, and
each equals its sum over the integers when that sum is in the `int` range.
`align` returns when the alignments are valid. -/
theorem align_width_height (e : Env) (t : TextBox) :
    (t.align e).box.width = len t.text + t.marginX * 2 + e.MarginX * 2 ∧
    (t.align e).box.height = 2 + t.marginY * 2 + e.MarginY * 2 ∧
    (inInt64 ((len t.text).val + 2 * t.marginX.val + 2 * e.MarginX.val) →
      (t.align e).box.width.val = (len t.text).val + 2 * t.marginX.val + 2 * e.MarginX.val) ∧
    (inInt64 (2 + 2 * t.marginY.val + 2 * e.MarginY.val) →
      (t.align e).box.height.val = 2 + 2 * t.marginY.val + 2 * e.MarginY.val) ∧
    (validHAlign t.halign = none → validVAlign t.valign = none →
      (t.align e).returned = true) := by
  obtain ⟨hw, hh, -⟩ := align_box_fields e t
  have hW := boxWidth_val e t
  have hH := boxHeight_val e t
  refine ⟨hw, hh, ?_, ?_, fun h1 h2 => align_returned_of_valid e t h1 h2⟩
  · intro i
    rw [hw, hW]
    simp only [exactWidth, wrap64, inInt64] at i ⊢
    omega
  · intro i
    rw [hh, hH]
    simp only [exactHeight, wrap64, inInt64] at i ⊢
    omega

/-! ## C8: running `align` twice -/

theorem reanchored_left_add_width (m w : GoInt) : m - w + w = m := by
  have rm := m.inRange
  apply GoInt.ext
  simp only [GoInt.add_val, GoInt.sub_val, wrap64, inInt64] at rm ⊢
  omega

theorem reanchored_top_add_height (m h : GoInt) : m - h - 1 + h = m - 1 := by
  apply GoInt.ext
  simp only [GoInt.add_val, GoInt.sub_val, GoInt.val_one, wrap64]
  omega

theorem alignRect_idempotent (e : Env) (t : TextBox) (r : String) :
    alignRect e { alignRect e t with repr := r } = { alignRect e t with repr := r } := by
  obtain ⟨hw, hh, hl, hr, ht, hb⟩ := alignRect_fields e t
  obtain ⟨f1, f2, f3, f4, f5, f6, f7, -⟩ := alignRect_frame e t
  obtain ⟨hw', hh', hl', hr', ht', hb'⟩ := alignRect_fields e { alignRect e t with repr := r }
  obtain ⟨g1, g2, g3, g4, g5, g6, g7, g8⟩ := alignRect_frame e { alignRect e t with repr := r }
  have bw : boxWidth e { alignRect e t with repr := r } = boxWidth e t := by
    simp only [boxWidth, f3, f6]
  have bh : boxHeight e { alignRect e t with repr := r } = boxHeight e t := by
    simp only [boxHeight, f7]
  have hnoX : ¬ e.MaxX > e.MaxX := fun hc => Int.lt_irrefl _ hc
  apply TextBox.ext
  · exact g1
  · exact g2
  · exact g3
  · exact g4
  · exact g5
  · exact g6
  · exact g7
  · rw [ht', bh]; simp only [ht]
    by_cases c : t.top + boxHeight e t > e.MaxY
    · simp only [if_pos c, ite_self]
    · simp only [if_neg c]
  · rw [hl', bw]; simp only [hl]
    by_cases c : t.left + boxWidth e t > e.MaxX
    · simp only [if_pos c, ite_self]
    · simp only [if_neg c]
  · rw [hw', bw]; simp only [hw]
  · rw [hh', bh]; simp only [hh]
  · rw [hb', bh]; simp only [ht, hb]
    by_cases c : t.top + boxHeight e t > e.MaxY
    · simp only [if_pos c, reanchored_top_add_height, ite_self]
    · simp only [if_neg c]
  · rw [hr', bw]; simp only [hl, hr]
    by_cases c : t.left + boxWidth e t > e.MaxX
    · simp only [if_pos c, reanchored_left_add_width, if_neg hnoX]
    · simp only [if_neg c]
  · exact g8

/-- C8. For every box with valid alignments and every environment, `align`
returns a box on which a second `align` in the same environment returns the
same box again: every field, `top`, `left`, `right`, `bottom`, `width`,
`height` and `repr` included, is unchanged by the second run. -/
theorem align_idempotent (e : Env) (t : TextBox)
    (hh : validHAlign t.halign = none) (hv : validVAlign t.valign = none) :
    ∃ t', t.align e = .ok t' ∧ t'.align e = .ok t' := by
  obtain ⟨f1, f2, f3, f4, f5, f6, f7, -⟩ := alignRect_frame e t
  refine ⟨_, align_of_valid e t hh hv, ?_⟩
  rw [align_of_valid e _ (by simpa only [f4] using hh) (by simpa only [f5] using hv)]
  rw [alignRect_idempotent]
  simp only [hPad, vPad, f3, f4, f5, f6, f7]

/-- C8 at the box `hello0` on a terminal of 10 columns and 5 rows, where the
first run re-anchors the box in both directions. -/
theorem align_idempotent_witness :
    (validHAlign hello0Box.halign = none ∧ validVAlign hello0Box.valign = none) ∧
    (hello0Box.left + boxWidth (envOfSize 10 5) hello0Box > (envOfSize 10 5).MaxX ∧
      hello0Box.top + boxHeight (envOfSize 10 5) hello0Box > (envOfSize 10 5).MaxY) ∧
    ∃ t', hello0Box.align (envOfSize 10 5) = .ok t' ∧ t'.align (envOfSize 10 5) = .ok t' :=
  ⟨⟨by decide, by decide⟩, ⟨by decide, by decide⟩,
    align_idempotent (envOfSize 10 5) hello0Box (by decide) (by decide)⟩

/-! ## C9: invalid alignment values -/

theorem New_not_returned_of_Apply_fails (e : Env) (gui : Gui) (name : String)
    (ps qs : List Option) (o : Option) (h : ∀ t, (o.Apply e t).returned = false) :
    (New e gui name (ps ++ o :: qs)).returned = false := by
  simp only [New, applyOptions_append]
  cases applyOptions e ps (TextBox.zero.init name gui) with
  | ok t1 =>
    simp only [applyOptions]
    have h1 := h t1
    cases h2 : o.Apply e t1 with
    | ok t2 => rw [h2] at h1; simp [Outcome.returned] at h1
    | abort msg box => rfl
  | abort msg box => rfl

/-- C9. `SetHAlign v` and the `WithHAlign v` option (and likewise `SetVAlign`,
`WithVAlign`) stop the program exactly when `v` is none of 1, 2, 3, the values
of the three declared constants; the box is then left as it was, and when the
call returns the box differs from the old one in the alignment field only,
which is `v`.  The zero value is rejected, and `New` given a rejected
alignment option anywhere in its option list does not return. -/
theorem SetAlign_rejects_exactly_invalid (e : Env) :
    (TextHAlignCenter = 1 ∧ TextHAlignLeft = 2 ∧ TextHAlignRight = 3 ∧
      TextVAlignCenter = 1 ∧ TextVAlignTop = 2 ∧ TextVAlignBottom = 3) ∧
    (∀ (t : TextBox) (v : TextHAlign),
      ((t.SetHAlign v).returned = false ↔ ¬ (v = 1 ∨ v = 2 ∨ v = 3)) ∧
      ((t.SetHAlign v).returned = false → (t.SetHAlign v).box = t) ∧
      ((t.SetHAlign v).returned = true → t.SetHAlign v = .ok { t with halign := v }) ∧
      (WithHAlign v).Apply e t = t.SetHAlign v) ∧
    (∀ (t : TextBox) (v : TextVAlign),
      ((t.SetVAlign v).returned = false ↔ ¬ (v = 1 ∨ v = 2 ∨ v = 3)) ∧
      ((t.SetVAlign v).returned = false → (t.SetVAlign v).box = t) ∧
      ((t.SetVAlign v).returned = true → t.SetVAlign v = .ok { t with valign := v }) ∧
      (WithVAlign v).Apply e t = t.SetVAlign v) ∧
    (∀ (t : TextBox), (t.SetHAlign 0).returned = false ∧ (t.SetVAlign 0).returned = false) ∧
    (∀ (gui : Gui) (name : String) (ps qs : List Option) (v : Nat),
      ¬ (v = 1 ∨ v = 2 ∨ v = 3) →
      (New e gui name (ps ++ WithHAlign v :: qs)).returned = false ∧
      (New e gui name (ps ++ WithVAlign v :: qs)).returned = false) := by
  have hH : ∀ (t : TextBox) (v : TextHAlign),
      ((t.SetHAlign v).returned = false ↔ ¬ (v = 1 ∨ v = 2 ∨ v = 3)) := by
    intro t v
    rw [← validHAlign_eq_none_iff]
    rcases SetHAlign_cases t v with ⟨h1, h2⟩ | ⟨h1, msg, h2⟩ <;>
      simp [h1, h2, Outcome.returned]
  have hV : ∀ (t : TextBox) (v : TextVAlign),
      ((t.SetVAlign v).returned = false ↔ ¬ (v = 1 ∨ v = 2 ∨ v = 3)) := by
    intro t v
    rw [← validVAlign_eq_none_iff]
    rcases SetVAlign_cases t v with ⟨h1, h2⟩ | ⟨h1, msg, h2⟩ <;>
      simp [h1, h2, Outcome.returned]
  refine ⟨⟨rfl, rfl, rfl, rfl, rfl, rfl⟩, ?_, ?_, ?_, ?_⟩
  · intro t v
    refine ⟨hH t v, ?_, ?_, rfl⟩
    · rcases SetHAlign_cases t v with ⟨-, h2⟩ | ⟨-, msg, h2⟩ <;>
        simp [h2, Outcome.returned, Outcome.box]
    · rcases SetHAlign_cases t v with ⟨-, h2⟩ | ⟨-, msg, h2⟩ <;>
        simp [h2, Outcome.returned]
  · intro t v
    refine ⟨hV t v, ?_, ?_, rfl⟩
    · rcases SetVAlign_cases t v with ⟨-, h2⟩ | ⟨-, msg, h2⟩ <;>
        simp [h2, Outcome.returned, Outcome.box]
    · rcases SetVAlign_cases t v with ⟨-, h2⟩ | ⟨-, msg, h2⟩ <;>
        simp [h2, Outcome.returned]
  · intro t
    exact ⟨(hH t 0).2 (by decide), (hV t 0).2 (by decide)⟩
  · intro gui name ps qs v hv
    exact ⟨New_not_returned_of_Apply_fails e gui name ps qs _ (fun t => (hH t v).2 hv),
      New_not_returned_of_Apply_fails e gui name ps qs _ (fun t => (hV t v).2 hv)⟩

/-! ## C10: the last option of a kind wins -/

theorem Apply_twice_same_kind (e : Env) (o1 o2 : Option) (t : TextBox)
    (hk : o1.kind = o2.kind) (h1 : o1.valid = true) (h2 : o2.valid = true) :
    (match o1.Apply e t with
      | .ok t' => o2.Apply e t'
      | .abort msg box => .abort msg box) = o2.Apply e t := by
  cases o1 <;> cases o2 <;> simp only [Option.kind] at hk <;> try omega
  · simp only [Option.valid, Option.isNone_iff_eq_none] at h1 h2
    simp [Option.Apply, TextBox.SetHAlign, h1, h2]
  · simp only [Option.valid, Option.isNone_iff_eq_none] at h1 h2
    simp [Option.Apply, TextBox.SetVAlign, h1, h2]
  · simp [Option.Apply, TextBox.SetText]
  · simp [Option.Apply, TextBox.SetMarginX]
  · simp [Option.Apply, TextBox.SetMarginY]
  · simp [Option.Apply, validTopLeft]

/-- C10. `New` applies its options from left to right, and for every option
prefix `ps` and every two valid options `o1`, `o2` of the same kind,
`New` on `ps ++ [o1, o2]` and `New` on `ps ++ [o2]` give the same result, equal
in every field. -/
theorem New_last_write_wins (e : Env) (gui : Gui) (name : String) (ps : List Option)
    (o1 o2 : Option) (hk : o1.kind = o2.kind) (h1 : o1.valid = true) (h2 : o2.valid = true) :
    New e gui name (ps ++ [o1, o2]) = New e gui name (ps ++ [o2]) := by
  simp only [New, applyOptions_append]
  cases applyOptions e ps (TextBox.zero.init name gui) with
  | ok t1 =>
    have h := Apply_twice_same_kind e o1 o2 t1 hk h1 h2
    simp only [applyOptions]
    cases h3 : o1.Apply e t1 with
    | ok t2 => rw [h3] at h; simp only at h; simp only [h]
    | abort msg box =>
      rw [h3] at h; simp only at h
      simp only [← h]
  | abort msg box => rfl

/-- C10 at the options of the box `hello0`, with two position options in a
row. -/
theorem New_last_write_wins_witness :
    ((WithPos 5 1000).kind = (WithPos 100 (-3)).kind ∧ (WithPos 5 1000).valid = true ∧
      (WithPos 100 (-3)).valid = true) ∧
    New (envOfSize 80 24) 0 "hello0"
        ([WithText "hello0", WithMarginX 3, WithMarginY 3] ++ [WithPos 5 1000, WithPos 100 (-3)])
      = New (envOfSize 80 24) 0 "hello0"
        ([WithText "hello0", WithMarginX 3, WithMarginY 3] ++ [WithPos 100 (-3)]) :=
  ⟨⟨by decide, by decide, by decide⟩,
    New_last_write_wins (envOfSize 80 24) 0 "hello0" _ _ _ (by decide) (by decide) (by decide)⟩

/-! ## C11: what one option changes -/

/-- C11. Applying an option changes its own attribute and nothing else: a text
option gives the box with `text` replaced, a margin-X option the box with
`marginX` replaced, a margin-Y option the box with `marginY` replaced, a
position option the box with `top` and `left` replaced, and after a horizontal
(vertical) alignment option the box is the old one with at most `halign`
(`valign`) replaced, whether the call returned or stopped the program. -/
theorem Apply_changes_only_own_attribute (e : Env) (t : TextBox) :
    (∀ v, (WithText v).Apply e t = .ok { t with text := v }) ∧
    (∀ v, (WithMarginX v).Apply e t = .ok { t with marginX := v }) ∧
    (∀ v, (WithMarginY v).Apply e t = .ok { t with marginY := v }) ∧
    (∀ top left, ∃ y x, (WithPos top left).Apply e t = .ok { t with top := y, left := x }) ∧
    (∀ v, ∃ h, ((WithHAlign v).Apply e t).box = { t with halign := h }) ∧
    (∀ v, ∃ h, ((WithVAlign v).Apply e t).box = { t with valign := h }) := by
  refine ⟨fun _ => rfl, fun _ => rfl, fun _ => rfl, fun top left => ⟨_, _, rfl⟩, ?_, ?_⟩
  · intro v
    rcases SetHAlign_cases t v with ⟨-, h⟩ | ⟨-, msg, h⟩
    · exact ⟨v, by simp [WithHAlign, Option.Apply, h, Outcome.box]⟩
    · exact ⟨t.halign, by simp [WithHAlign, Option.Apply, h, Outcome.box]⟩
  · intro v
    rcases SetVAlign_cases t v with ⟨-, h⟩ | ⟨-, msg, h⟩
    · exact ⟨v, by simp [WithVAlign, Option.Apply, h, Outcome.box]⟩
    · exact ⟨t.valign, by simp [WithVAlign, Option.Apply, h, Outcome.box]⟩

/-! ## C12: the box of `New` without options -/

/-- C12. `New(gui, name)` with no option returns a box with the given name
and gui, empty text, both alignments Center, both margins 1 and top and left
0. -/
theorem New_no_options_defaults (e : Env) (gui : Gui) (name : String) :
    ∃ t, New e gui name [] = .ok t ∧
      t.name = name ∧ t.gui = gui ∧ t.text = "" ∧
      t.halign = TextHAlignCenter ∧ t.valign = TextVAlignCenter ∧
      t.marginX = 1 ∧ t.marginY = 1 ∧ t.top = 0 ∧ t.left = 0 :=
  ⟨_, rfl, rfl, rfl, rfl, rfl, rfl, rfl, rfl, rfl, rfl⟩

/-! ## C13: handing the box to the terminal library -/

/-- C13. For every box with valid alignments and every collaborator, `SetView`
aligns the box and asks the collaborator for a view at `(name, left, top,
right, bottom)`.  When the collaborator answers `ErrUnknownView` (the view is
new), `SetView` writes `repr` and a newline into that view, once, and returns
`nil`; for every other answer, `nil` included (the view existed), it writes
nothing and returns the collaborator's error unchanged. -/
theorem SetView_writes_iff_ErrUnknownView {View Err : Type} [DecidableEq Err] (e : Env)
    (lib : gocui.Lib View Err) (t : TextBox)
    (hh : validHAlign t.halign = none) (hv : validVAlign t.valign = none) :
    ∃ t', t.align e = .ok t' ∧
      ((lib.SetView t'.gui t'.name t'.left t'.top t'.right t'.bottom).2
          = some lib.ErrUnknownView →
        t.SetView e lib
          = .ret t'
              [((lib.SetView t'.gui t'.name t'.left t'.top t'.right t'.bottom).1,
                t'.repr ++ "\n")] none) ∧
      ((lib.SetView t'.gui t'.name t'.left t'.top t'.right t'.bottom).2
          ≠ some lib.ErrUnknownView →
        t.SetView e lib
          = .ret t' [] (lib.SetView t'.gui t'.name t'.left t'.top t'.right t'.bottom).2) := by
  obtain ⟨t', hal⟩ : ∃ t', t.align e = .ok t' := ⟨_, align_of_valid e t hh hv⟩
  refine ⟨t', hal, ?_, ?_⟩
  · intro h
    unfold TextBox.SetView
    rw [hal]
    simp only []
    rw [if_neg (by simpa using h)]
    rfl
  · intro h
    unfold TextBox.SetView
    rw [hal]
    simp only []
    rw [if_pos h]

/-- C13 at the box `hello0` on an 80 by 24 terminal where a view of that name
exists: nothing is written and `nil` comes back.  On a terminal without views
the same call writes the padded text once. -/
theorem SetView_writes_iff_ErrUnknownView_witness :
    (validHAlign hello0Box.halign = none ∧ validVAlign hello0Box.valign = none) ∧
    hello0Box.SetView (envOfSize 80 24) (sampleLib ["hello0"])
      = .ret (hello0Box.align (envOfSize 80 24)).box [] none ∧
    hello0Box.SetView (envOfSize 80 24) (sampleLib [])
      = .ret (hello0Box.align (envOfSize 80 24)).box
          [("hello0", "\n\n\n   hello0\n")] none ∧
    ∃ t', hello0Box.align (envOfSize 80 24) = .ok t' ∧
      (((sampleLib ["hello0"]).SetView t'.gui t'.name t'.left t'.top t'.right t'.bottom).2
          = some (sampleLib ["hello0"]).ErrUnknownView →
        hello0Box.SetView (envOfSize 80 24) (sampleLib ["hello0"])
          = .ret t'
              [(((sampleLib ["hello0"]).SetView t'.gui t'.name t'.left t'.top t'.right
                  t'.bottom).1, t'.repr ++ "\n")] none) ∧
      (((sampleLib ["hello0"]).SetView t'.gui t'.name t'.left t'.top t'.right t'.bottom).2
          ≠ some (sampleLib ["hello0"]).ErrUnknownView →
        hello0Box.SetView (envOfSize 80 24) (sampleLib ["hello0"])
          = .ret t' []
              ((sampleLib ["hello0"]).SetView t'.gui t'.name t'.left t'.top t'.right
                t'.bottom).2) :=
  ⟨⟨by decide, by decide⟩, by decide, by decide,
    SetView_writes_iff_ErrUnknownView (envOfSize 80 24) (sampleLib ["hello0"]) hello0Box
      (by decide) (by decide)⟩

/-! ## C14: the resolved top -/

/-- C14 fails on the code when the repositioned top overflows: on an 80 by 24
terminal a fresh box with the non-negative margin-Y `2^62 + 2^61` asked to sit
at top 100 gets top `2^62 + 22` from `SetPos` and from the position option,
while `MaxY - 2 - 2*marginY - 2*env.MarginY` is `22 - 2^63 - 2^62`. -/
theorem SetPos_top_wraps_on_overflow :
    (100 : GoInt) > (envOfSize 80 24).MaxY ∧
    (0 : GoInt) ≤ tallerMarginBox.marginY ∧
    (tallerMarginBox.SetPos (envOfSize 80 24) 100 0).top.val = 4611686018427387926 ∧
    ((WithPos 100 0).Apply (envOfSize 80 24) tallerMarginBox).box.top.val
      = 4611686018427387926 ∧
    (envOfSize 80 24).MaxY.val - 2 - 2 * tallerMarginBox.marginY.val
      - 2 * (envOfSize 80 24).MarginY.val = -13835058055282163690 := by
  decide

/-- C14, amended. For every box, every environment whose `MaxY` is a terminal
height (not negative) and every requested position, `SetPos` and the position
option set top to the value of the policy, wrapped around into the `int`
range: to 0 if `top < 0`; to `MaxY - 2 - 2*marginY - 2*env.MarginY` in
wrap-around `int` arithmetic if `top > MaxY`, which is that value over the
integers when it is in the `int` range; to the requested top if
`0 ≤ top ≤ MaxY`. -/
theorem SetPos_top_eq_topPolicy (e : Env) (t : TextBox) (top left : GoInt)
    (hY : 0 ≤ e.MaxY) :
    (t.SetPos e top left).top.val = wrap64 (topPolicy e t top.val) ∧
    (WithPos top left).Apply e t = .ok (t.SetPos e top left) ∧
    (top < 0 → (t.SetPos e top left).top = 0) ∧
    (top > e.MaxY →
      (t.SetPos e top left).top = e.MaxY - 2 - t.marginY * 2 - e.MarginY * 2 ∧
      (inInt64 (e.MaxY.val - 2 - 2 * t.marginY.val - 2 * e.MarginY.val) →
        (t.SetPos e top left).top.val
          = e.MaxY.val - 2 - 2 * t.marginY.val - 2 * e.MarginY.val)) ∧
    (0 ≤ top → top ≤ e.MaxY → (t.SetPos e top left).top = top) := by
  have hP := posTop_val e t
  have rT := top.inRange
  simp only [GoInt.le_def, GoInt.val_zero] at hY
  refine ⟨?_, rfl, ?_, ?_, ?_⟩
  · simp only [TextBox.SetPos, validTopLeft, topPolicy, GoInt.lt_def, gt_iff_lt,
      GoInt.val_zero]
    split_ifs
    · decide
    · rw [hP]
      simp only [exactHeight, wrap64]
      omega
    · simp only [wrap64, inInt64] at rT ⊢
      omega
  · intro h
    simp only [TextBox.SetPos, validTopLeft, if_pos h]
  · intro h
    have h0 : ¬ top < 0 := by
      simp only [gt_iff_lt, GoInt.lt_def, GoInt.val_zero] at h ⊢; omega
    have hs : (t.SetPos e top left).top = e.MaxY - 2 - t.marginY * 2 - e.MarginY * 2 := by
      simp only [TextBox.SetPos, validTopLeft, if_neg h0, if_pos h]
    refine ⟨hs, ?_⟩
    intro i
    rw [hs, hP]
    simp only [exactHeight, wrap64, inInt64] at i ⊢
    omega
  · intro h0 h
    have c1 : ¬ top < 0 := by
      simp only [GoInt.le_def, GoInt.lt_def, GoInt.val_zero] at h0 ⊢; omega
    have c2 : ¬ top > e.MaxY := by
      simp only [gt_iff_lt, GoInt.le_def, GoInt.lt_def] at h ⊢; omega
    simp only [TextBox.SetPos, validTopLeft, if_neg c1, if_neg c2]

/-- C14 amended, at a fresh box asked to sit at top 100 on an 80 by 24
terminal: its top becomes 20. -/
theorem SetPos_top_eq_topPolicy_witness :
    (0 : GoInt) ≤ (envOfSize 80 24).MaxY ∧
    ((defaultBox "box" 0).SetPos (envOfSize 80 24) 100 0).top = 20 ∧
    ((defaultBox "box" 0).SetPos (envOfSize 80 24) 100 0).top.val
      = wrap64 (topPolicy (envOfSize 80 24) (defaultBox "box" 0) (100 : GoInt).val) :=
  ⟨by decide, by decide,
    (SetPos_top_eq_topPolicy (envOfSize 80 24) (defaultBox "box" 0) 100 0 (by decide)).1⟩

/-! ## C15: re-anchoring -/

/-- C15 fails on the code when `left + width` overflows.  On an 80 by 24
terminal `New` with the options margin-X `2^62 + 41`, position (0, 1000),
margin-X 1 returns a box at left `2^63 - 2`; `align` computes the width 2, and
although `left + width` is above `MaxX` over the integers the box keeps its
left (it is not moved to `MaxX - width = 78`) and its right edge is `-2^63`,
not `MaxX`. -/
theorem align_keeps_left_when_sum_wraps :
    (New (envOfSize 80 24) 0 "box" farRightOptions).returned = true ∧
    (New (envOfSize 80 24) 0 "box" farRightOptions).box.left.val = 9223372036854775806 ∧
    ((New (envOfSize 80 24) 0 "box" farRightOptions).box.align (envOfSize 80 24)).returned
      = true ∧
    ((New (envOfSize 80 24) 0 "box" farRightOptions).box.align (envOfSize 80 24)).box.width
      = 2 ∧
    (New (envOfSize 80 24) 0 "box" farRightOptions).box.left.val + 2
      > (envOfSize 80 24).MaxX.val ∧
    ((New (envOfSize 80 24) 0 "box" farRightOptions).box.align
      (envOfSize 80 24)).box.left.val = 9223372036854775806 ∧
    ((New (envOfSize 80 24) 0 "box" farRightOptions).box.align
      (envOfSize 80 24)).box.right.val = -9223372036854775808 := by
  decide

/-- C15, amended. For every box and environment, with the width and height
that `align` computes and all sums and differences in wrap-around `int`
arithmetic: if `left + width > MaxX` then afterwards `left = MaxX - width` and
`right = MaxX`, otherwise left is unchanged and `right = left + width`; if
`top + height > MaxY` then afterwards `top = MaxY - height - 1` and
`bottom = MaxY - 1`, otherwise top is unchanged and `bottom = top + height`.
The same holds over the integers when `left + width` and `MaxX - width`
(for the first half), `top + height`, `MaxY - height - 1` and `MaxY - 1` (for
the second half) are in the `int` range.  `align` returns when the alignments
are valid. -/
theorem align_reanchors_overflowing_box (e : Env) (t : TextBox) :
    (t.align e).box.width = len t.text + t.marginX * 2 + e.MarginX * 2 ∧
    (t.align e).box.height = 2 + t.marginY * 2 + e.MarginY * 2 ∧
    (t.left + (t.align e).box.width > e.MaxX →
      (t.align e).box.left = e.MaxX - (t.align e).box.width ∧
      (t.align e).box.right = e.MaxX) ∧
    (¬ t.left + (t.align e).box.width > e.MaxX →
      (t.align e).box.left = t.left ∧
      (t.align e).box.right = t.left + (t.align e).box.width) ∧
    (t.top + (t.align e).box.height > e.MaxY →
      (t.align e).box.top = e.MaxY - (t.align e).box.height - 1 ∧
      (t.align e).box.bottom = e.MaxY - 1) ∧
    (¬ t.top + (t.align e).box.height > e.MaxY →
      (t.align e).box.top = t.top ∧
      (t.align e).box.bottom = t.top + (t.align e).box.height) ∧
    (inInt64 (t.left.val + (t.align e).box.width.val) →
      inInt64 (e.MaxX.val - (t.align e).box.width.val) →
      (t.left.val + (t.align e).box.width.val > e.MaxX.val →
        (t.align e).box.left.val = e.MaxX.val - (t.align e).box.width.val ∧
        (t.align e).box.right.val = e.MaxX.val) ∧
      (t.left.val + (t.align e).box.width.val ≤ e.MaxX.val →
        (t.align e).box.left.val = t.left.val ∧
        (t.align e).box.right.val = t.left.val + (t.align e).box.width.val)) ∧
    (inInt64 (t.top.val + (t.align e).box.height.val) →
      inInt64 (e.MaxY.val - (t.align e).box.height.val - 1) →
      inInt64 (e.MaxY.val - 1) →
      (t.top.val + (t.align e).box.height.val > e.MaxY.val →
        (t.align e).box.top.val = e.MaxY.val - (t.align e).box.height.val - 1 ∧
        (t.align e).box.bottom.val = e.MaxY.val - 1) ∧
      (t.top.val + (t.align e).box.height.val ≤ e.MaxY.val →
        (t.align e).box.top.val = t.top.val ∧
        (t.align e).box.bottom.val = t.top.val + (t.align e).box.height.val)) ∧
    (validHAlign t.halign = none → validVAlign t.valign = none →
      (t.align e).returned = true) := by
  obtain ⟨hw, hh, hl, hr, ht, hb⟩ := align_box_fields e t
  rw [hw, hh, hl, hr, ht, hb]
  refine ⟨rfl, rfl, ?_, ?_, ?_, ?_, ?_, ?_, fun h1 h2 => align_returned_of_valid e t h1 h2⟩
  · intro h; rw [if_pos h, if_pos h]; exact ⟨rfl, rfl⟩
  · intro h; rw [if_neg h, if_neg h]; exact ⟨rfl, rfl⟩
  · intro h; rw [if_pos h, if_pos h]; exact ⟨rfl, rfl⟩
  · intro h; rw [if_neg h, if_neg h]; exact ⟨rfl, rfl⟩
  · intro i1 i2
    have rX := e.MaxX.inRange
    constructor
    · intro h
      have c : t.left + boxWidth e t > e.MaxX := by
        simp only [gt_iff_lt, GoInt.lt_def, GoInt.add_val, wrap64, inInt64] at i1 ⊢
        omega
      rw [if_pos c, if_pos c]
      simp only [GoInt.sub_val, wrap64, inInt64] at i2 ⊢
      constructor <;> first | trivial | omega
    · intro h
      have c : ¬ t.left + boxWidth e t > e.MaxX := by
        simp only [gt_iff_lt, GoInt.lt_def, GoInt.add_val, wrap64, inInt64] at i1 ⊢
        omega
      rw [if_neg c, if_neg c]
      simp only [GoInt.add_val, wrap64, inInt64] at i1 ⊢
      constructor <;> first | trivial | omega
  · intro i1 i2 i3
    constructor
    · intro h
      have c : t.top + boxHeight e t > e.MaxY := by
        simp only [gt_iff_lt, GoInt.lt_def, GoInt.add_val, wrap64, inInt64] at i1 ⊢
        omega
      rw [if_pos c, if_pos c]
      simp only [GoInt.sub_val, GoInt.val_one, wrap64, inInt64] at i2 i3 ⊢
      constructor <;> first | trivial | omega
    · intro h
      have c : ¬ t.top + boxHeight e t > e.MaxY := by
        simp only [gt_iff_lt, GoInt.lt_def, GoInt.add_val, wrap64, inInt64] at i1 ⊢
        omega
      rw [if_neg c, if_neg c]
      simp only [GoInt.add_val, wrap64, inInt64] at i1 ⊢
      constructor <;> first | trivial | omega

/-! ## C16: the size of the rectangle -/

/-- C16 fails on the code when `left + width` overflows.  On an 80 by 24
terminal `New` with the options margin-X `2^62 + 41`, position (0, 1000),
margin-X 1 returns a box that `align` leaves at left `2^63 - 2` with width 2
and right edge `-2^63`: over the integers `right - left` is `2 - 2^64`, not
the width. -/
theorem align_right_sub_left_ne_width_when_sum_wraps :
    (New (envOfSize 80 24) 0 "box" farRightOptions).returned = true ∧
    ((New (envOfSize 80 24) 0 "box" farRightOptions).box.align (envOfSize 80 24)).returned
      = true ∧
    ((New (envOfSize 80 24) 0 "box" farRightOptions).box.align
      (envOfSize 80 24)).box.right.val
      - ((New (envOfSize 80 24) 0 "box" farRightOptions).box.align
        (envOfSize 80 24)).box.left.val = -18446744073709551614 ∧
    ((New (envOfSize 80 24) 0 "box" farRightOptions).box.align
      (envOfSize 80 24)).box.width.val = 2 := by
  decide

/-- C16, amended. For every box and environment, after `align` the rectangle
has the computed size in wrap-around `int` arithmetic, `right - left = width`
and `bottom - top = height`; over the integers `right - left` equals the width
when that difference is in the `int` range, and likewise `bottom - top` the
height.  `align` returns when the alignments are valid. -/
theorem align_never_shrinks (e : Env) (t : TextBox) :
    (t.align e).box.right - (t.align e).box.left = (t.align e).box.width ∧
    (t.align e).box.bottom - (t.align e).box.top = (t.align e).box.height ∧
    (inInt64 ((t.align e).box.right.val - (t.align e).box.left.val) →
      (t.align e).box.right.val - (t.align e).box.left.val = (t.align e).box.width.val) ∧
    (inInt64 ((t.align e).box.bottom.val - (t.align e).box.top.val) →
      (t.align e).box.bottom.val - (t.align e).box.top.val = (t.align e).box.height.val) ∧
    (validHAlign t.halign = none → validVAlign t.valign = none →
      (t.align e).returned = true) := by
  obtain ⟨hw, hh, hl, hr, ht, hb⟩ := align_box_fields e t
  have rW := (boxWidth e t).inRange
  have rH := (boxHeight e t).inRange
  have h1 : (t.align e).box.right - (t.align e).box.left = (t.align e).box.width := by
    rw [hw, hl, hr]
    apply GoInt.ext
    split_ifs <;> simp only [GoInt.sub_val, GoInt.add_val, wrap64, inInt64] at rW ⊢ <;> omega
  have h2 : (t.align e).box.bottom - (t.align e).box.top = (t.align e).box.height := by
    rw [hh, ht, hb]
    apply GoInt.ext
    split_ifs <;>
      simp only [GoInt.sub_val, GoInt.add_val, GoInt.val_one, wrap64, inInt64] at rH ⊢ <;>
      omega
  refine ⟨h1, h2, ?_, ?_, fun h1 h2 => align_returned_of_valid e t h1 h2⟩
  · intro i
    have h3 := congrArg GoInt.val h1
    simp only [GoInt.sub_val, wrap64, inInt64] at h3 i
    omega
  · intro i
    have h3 := congrArg GoInt.val h2
    simp only [GoInt.sub_val, wrap64, inInt64] at h3 i
    omega

/-! ## C17: the alignments stay valid -/

theorem align_preserves_valid (e : Env) (t t' : TextBox) (h : t.align e = .ok t')
    (hv : validHAlign t.halign = none ∧ validVAlign t.valign = none) :
    validHAlign t'.halign = none ∧ validVAlign t'.valign = none := by
  obtain ⟨-, -, -, f4, f5, -⟩ := alignRect_frame e t
  rw [align_of_valid e t hv.1 hv.2, Outcome.ok.injEq] at h
  subst h
  exact ⟨by simpa only [f4] using hv.1, by simpa only [f5] using hv.2⟩

theorem Call_preserves_valid (e : Env) (c : Call) (t t' : TextBox)
    (h : c.run e t = .ok t')
    (hv : validHAlign t.halign = none ∧ validVAlign t.valign = none) :
    validHAlign t'.halign = none ∧ validVAlign t'.valign = none := by
  cases c with
  | SetHAlign v => exact Apply_preserves_valid e (.TextHAlign v) t t' h hv
  | SetVAlign v => exact Apply_preserves_valid e (.TextVAlign v) t t' h hv
  | SetText v => exact Apply_preserves_valid e (.Text v) t t' h hv
  | SetMarginX v => exact Apply_preserves_valid e (.MarginX v) t t' h hv
  | SetMarginY v => exact Apply_preserves_valid e (.MarginY v) t t' h hv
  | SetPos top left => exact Apply_preserves_valid e (.Pos top left) t t' h hv
  | align => exact align_preserves_valid e t t' h hv

theorem runCalls_preserves_valid (cs : List (Env × Call)) (t t' : TextBox)
    (h : runCalls cs t = .ok t')
    (hv : validHAlign t.halign = none ∧ validVAlign t.valign = none) :
    validHAlign t'.halign = none ∧ validVAlign t'.valign = none := by
  induction cs generalizing t with
  | nil => simp only [runCalls, Outcome.ok.injEq] at h; subst h; exact hv
  | cons ec cs ih =>
    obtain ⟨e, c⟩ := ec
    simp only [runCalls] at h
    cases hc : c.run e t with
    | ok t1 =>
      rw [hc] at h
      exact ih t1 h (Call_preserves_valid e c t t1 hc hv)
    | abort msg box => rw [hc] at h; simp at h

/-- C17. A box returned by `New` (any environment, any option list) and then
taken through any sequence of `SetHAlign`, `SetVAlign`, `SetText`,
`SetMarginX`, `SetMarginY`, `SetPos` and `align` calls that all return has
`halign` among Center, Left, Right and `valign` among Center, Top, Bottom, and
`align` on it returns in every environment: its two `panic` branches are not
reached. -/
theorem alignments_valid_after_New_and_calls (e : Env) (gui : Gui) (name : String)
    (options : List Option) (cs : List (Env × Call)) (t t' : TextBox)
    (hnew : New e gui name options = .ok t) (hrun : runCalls cs t = .ok t') :
    (t'.halign = TextHAlignCenter ∨ t'.halign = TextHAlignLeft ∨
      t'.halign = TextHAlignRight) ∧
    (t'.valign = TextVAlignCenter ∨ t'.valign = TextVAlignTop ∨
      t'.valign = TextVAlignBottom) ∧
    ∀ e', (t'.align e').returned = true := by
  have hv := runCalls_preserves_valid cs t t' hrun (New_valid e gui name options t hnew)
  refine ⟨?_, ?_, fun e' => align_returned_of_valid e' t' hv.1 hv.2⟩
  · exact (validHAlign_eq_none_iff _).mp hv.1
  · exact (validVAlign_eq_none_iff _).mp hv.2

/-- C17 at the box `hello2` of `main.go`, moved, aligned, given other
alignments, text and margins, and aligned again on a smaller terminal. -/
theorem alignments_valid_after_New_and_calls_witness :
    (main.hello2 (envOfSize 80 24) 0 = .ok (main.hello2 (envOfSize 80 24) 0).box ∧
      runCalls sampleCalls (main.hello2 (envOfSize 80 24) 0).box = .ok sampleCallsResult) ∧
    (sampleCallsResult.halign = TextHAlignCenter ∨ sampleCallsResult.halign = TextHAlignLeft ∨
      sampleCallsResult.halign = TextHAlignRight) ∧
    (sampleCallsResult.valign = TextVAlignCenter ∨ sampleCallsResult.valign = TextVAlignTop ∨
      sampleCallsResult.valign = TextVAlignBottom) ∧
    ∀ e', (sampleCallsResult.align e').returned = true :=
  ⟨⟨by decide, by decide⟩,
    alignments_valid_after_New_and_calls (envOfSize 80 24) 0 "hello2"
      [WithText "hello2", WithHAlign TextHAlignRight, WithVAlign TextVAlignBottom,
       WithMarginX 4, WithMarginY 4, WithPos (envOfSize 80 24).MaxY (envOfSize 80 24).MaxX]
      sampleCalls (main.hello2 (envOfSize 80 24) 0).box sampleCallsResult
      (by decide) (by decide)⟩

/-! ## C18: what `align` leaves alone -/

/-- C18 fails on the code when `left + width` overflows.  On an 80 by 24
terminal `New` with the options text "aa", margin-X 40, position (0, 1000),
text "", margin-X `2^62` returns a box at left -2, top 0; `align` computes the
width `-2^63` and the height 4, so over the integers `left + width ≤ MaxX` and
`top + height ≤ MaxY`, yet `align` moves the box to left `80 - 2^63`. -/
theorem align_moves_left_when_sum_wraps :
    (New (envOfSize 80 24) 0 "box" leftOfOriginOptions).returned = true ∧
    (New (envOfSize 80 24) 0 "box" leftOfOriginOptions).box.left = -2 ∧
    (New (envOfSize 80 24) 0 "box" leftOfOriginOptions).box.top = 0 ∧
    ((New (envOfSize 80 24) 0 "box" leftOfOriginOptions).box.align
      (envOfSize 80 24)).box.width.val = -9223372036854775808 ∧
    ((New (envOfSize 80 24) 0 "box" leftOfOriginOptions).box.align
      (envOfSize 80 24)).box.height = 4 ∧
    (New (envOfSize 80 24) 0 "box" leftOfOriginOptions).box.left.val
      + (-9223372036854775808) ≤ (envOfSize 80 24).MaxX.val ∧
    (New (envOfSize 80 24) 0 "box" leftOfOriginOptions).box.top.val + 4
      ≤ (envOfSize 80 24).MaxY.val ∧
    ((New (envOfSize 80 24) 0 "box" leftOfOriginOptions).box.align
      (envOfSize 80 24)).box.left.val = -9223372036854775728 := by
  decide

/-- C18, amended. For every box and environment, `align` leaves `gui`, `name`,
`text`, `halign`, `valign`, `marginX` and `marginY` as they were, and it leaves
`left` as it was when `left + width ≤ MaxX` and `top` as it was when
`top + height ≤ MaxY`, the sums being taken in wrap-around `int` arithmetic, as
they are over the integers when they are in the `int` range.  `align` returns
when the alignments are valid. -/
theorem align_changes_only_derived_state (e : Env) (t : TextBox) :
    (t.align e).box.gui = t.gui ∧ (t.align e).box.name = t.name ∧
    (t.align e).box.text = t.text ∧ (t.align e).box.halign = t.halign ∧
    (t.align e).box.valign = t.valign ∧ (t.align e).box.marginX = t.marginX ∧
    (t.align e).box.marginY = t.marginY ∧
    (t.left + (t.align e).box.width ≤ e.MaxX → (t.align e).box.left = t.left) ∧
    (t.top + (t.align e).box.height ≤ e.MaxY → (t.align e).box.top = t.top) ∧
    (inInt64 (t.left.val + (t.align e).box.width.val) →
      t.left.val + (t.align e).box.width.val ≤ e.MaxX.val → (t.align e).box.left = t.left) ∧
    (inInt64 (t.top.val + (t.align e).box.height.val) →
      t.top.val + (t.align e).box.height.val ≤ e.MaxY.val → (t.align e).box.top = t.top) ∧
    (validHAlign t.halign = none → validVAlign t.valign = none →
      (t.align e).returned = true) := by
  obtain ⟨hw, hh, hl, -, ht, -⟩ := align_box_fields e t
  obtain ⟨f1, f2, f3, f4, f5, f6, f7, -⟩ := alignRect_frame e t
  have hb := align_box e t
  refine ⟨?_, ?_, ?_, ?_, ?_, ?_, ?_, ?_, ?_, ?_, ?_,
    fun h1 h2 => align_returned_of_valid e t h1 h2⟩
  · rw [hb]; exact f1
  · rw [hb]; exact f2
  · rw [hb]; exact f3
  · rw [hb]; exact f4
  · rw [hb]; exact f5
  · rw [hb]; exact f6
  · rw [hb]; exact f7
  · intro h
    rw [hw] at h
    have c : ¬ t.left + boxWidth e t > e.MaxX := Int.not_lt.mpr h
    rw [hl, if_neg c]
  · intro h
    rw [hh] at h
    have c : ¬ t.top + boxHeight e t > e.MaxY := Int.not_lt.mpr h
    rw [ht, if_neg c]
  · intro i h
    rw [hw] at i h
    have c : ¬ t.left + boxWidth e t > e.MaxX := by
      simp only [gt_iff_lt, GoInt.lt_def, GoInt.add_val, wrap64, inInt64] at i ⊢
      omega
    rw [hl, if_neg c]
  · intro i h
    rw [hh] at i h
    have c : ¬ t.top + boxHeight e t > e.MaxY := by
      simp only [gt_iff_lt, GoInt.lt_def, GoInt.add_val, wrap64, inInt64] at i ⊢
      omega
    rw [ht, if_neg c]

end textbox
